import Mathlib

/-!
Verification development for the EPIC-1 Regulation Ingestion & Canonicalization Core.

The Python services under `app/` are shallowly embedded as Lean definitions:
pure helpers become Lean functions, the Postgres tables become lists of rows
inside an explicit `St` state record, and every service method that touches the
database becomes a state-passing function.  `HTTPException` raises become
`Except` errors (prior writes persist, matching autocommit semantics).
`uuid4()` is modelled by a fresh-name counter carried in the state, and the
`at` / `created_at` / `uploaded_at` timestamp ordering of rows is modelled by
list insertion order (newest rows at the tail) plus an explicit logical clock
for `uploaded_at`.  Python `float` values that are merely stored (never
compared) are modelled by their decimal literal.
-/

/-! ## Basic string helpers (Python `str` semantics used by the services) -/

/-- ASCII whitespace as recognised by Python `str.strip` / `str.isspace`
(the inputs relevant here are ASCII; the services never rely on Unicode
whitespace classes). -/
def pyIsSpace (c : Char) : Bool :=
  c = ' ' || c = '\t' || c = '\n' || c = '\x0d' || c.toNat = 11 || c.toNat = 12

/-- Python `str.strip()` with no argument: remove leading and trailing
whitespace. -/
def pyStrip (s : String) : String :=
  String.mk (((s.data.dropWhile pyIsSpace).reverse.dropWhile pyIsSpace).reverse)

/-- Python `str.lower()` (ASCII case folding, which is all the rule keywords
need). -/
def pyLower (s : String) : String := String.mk (s.data.map Char.toLower)

/-- Truthiness of an optional string in Python (`None` and `""` are falsy). -/
def strTruthy : Option String → Bool
  | none => false
  | some s => s ≠ ""

/-- `needle in hay` for Python strings: substring containment. -/
def listContainsSub (hay needle : List Char) : Bool :=
  (List.range (hay.length + 1)).any (fun i => needle.isPrefixOf (hay.drop i))

def strContainsSub (hay needle : String) : Bool :=
  listContainsSub hay.data needle.data

/-- Python `str.join` with `" "` separator. -/
def spaceJoin : List String → String
  | [] => ""
  | [s] => s
  | s :: rest => s ++ " " ++ spaceJoin rest

/-- A string is whitespace-only iff `str.strip()` yields `""`
(i.e. `not text.strip()` in Python). -/
def allSpace (cs : List Char) : Bool := cs.all pyIsSpace

/-! ## UTF-8 encoding (Python `str.encode("utf-8")`) -/

/-- UTF-8 encode a single code point (RFC 3629). -/
def utf8EncodeCp (n : Nat) : List Nat :=
  if n < 0x80 then [n]
  else if n < 0x800 then [0xC0 + n / 64, 0x80 + n % 64]
  else if n < 0x10000 then [0xE0 + n / 4096, 0x80 + (n / 64) % 64, 0x80 + n % 64]
  else [0xF0 + n / 262144, 0x80 + (n / 4096) % 64, 0x80 + (n / 64) % 64, 0x80 + n % 64]

/-- UTF-8 bytes of a string. -/
def utf8Bytes (s : String) : List Nat :=
  (s.data.map (fun c => utf8EncodeCp c.toNat)).flatten

/-! ## SHA-256 (hashlib.sha256), on lists of byte values -/

def w32 (x : Nat) : Nat := x % 4294967296

def rotr32 (n x : Nat) : Nat := w32 ((x >>> n) ||| (x <<< (32 - n)))

def shaCh (x y z : Nat) : Nat := Nat.xor (Nat.land x y) (Nat.land (Nat.xor x 4294967295) z)

def shaMaj (x y z : Nat) : Nat :=
  Nat.xor (Nat.xor (Nat.land x y) (Nat.land x z)) (Nat.land y z)

def bigSigma0 (x : Nat) : Nat := Nat.xor (Nat.xor (rotr32 2 x) (rotr32 13 x)) (rotr32 22 x)

def bigSigma1 (x : Nat) : Nat := Nat.xor (Nat.xor (rotr32 6 x) (rotr32 11 x)) (rotr32 25 x)

def smallSigma0 (x : Nat) : Nat := Nat.xor (Nat.xor (rotr32 7 x) (rotr32 18 x)) (x >>> 3)

def smallSigma1 (x : Nat) : Nat := Nat.xor (Nat.xor (rotr32 17 x) (rotr32 19 x)) (x >>> 10)

def shaK : List Nat :=
  [1116352408, 1899447441, 3049323471, 3921009573, 961987163, 1508970993,
   2453635748, 2870763221, 3624381080, 310598401, 607225278, 1426881987,
   1925078388, 2162078206, 2614888103, 3248222580, 3835390401, 4022224774,
   264347078, 604807628, 770255983, 1249150122, 1555081692, 1996064986,
   2554220882, 2821834349, 2952996808, 3210313671, 3336571891, 3584528711,
   113926993, 338241895, 666307205, 773529912, 1294757372, 1396182291,
   1695183700, 1986661051, 2177026350, 2456956037, 2730485921, 2820302411,
   3259730800, 3345764771, 3516065817, 3600352804, 4094571909, 275423344,
   430227734, 506948616, 659060556, 883997877, 958139571, 1322822218,
   1537002063, 1747873779, 1955562222, 2024104815, 2227730452, 2361852424,
   2428436474, 2756734187, 3204031479, 3329325298]

def shaH0 : List Nat :=
  [1779033703, 3144134277, 1013904242, 2773480762,
   1359893119, 2600822924, 528734635, 1541459225]

/-- 64-bit big-endian byte encoding. -/
def be64 (n : Nat) : List Nat :=
  [(n >>> 56) % 256, (n >>> 48) % 256, (n >>> 40) % 256, (n >>> 32) % 256,
   (n >>> 24) % 256, (n >>> 16) % 256, (n >>> 8) % 256, n % 256]

/-- SHA-256 message padding. -/
def shaPad (msg : List Nat) : List Nat :=
  let l := msg.length
  let z := (119 - l % 64) % 64
  msg ++ (0x80 :: List.replicate z 0) ++ be64 (8 * l)

/-- Split a byte list into 64-byte blocks (structural recursion on a fuel
bound so the definition evaluates inside the kernel; the fuel `l.length`
always suffices because each step drops 64 > 0 elements). -/
def blocks64Aux : Nat → List Nat → List (List Nat)
  | 0, _ => []
  | _, [] => []
  | fuel + 1, l => l.take 64 :: blocks64Aux fuel (l.drop 64)

def blocks64 (l : List Nat) : List (List Nat) := blocks64Aux l.length l

/-- Pack a 64-byte block into 16 big-endian 32-bit words. -/
def words16 (bl : List Nat) : List Nat :=
  (List.range 16).map (fun i =>
    bl.getD (4 * i) 0 * 16777216 + bl.getD (4 * i + 1) 0 * 65536 +
    bl.getD (4 * i + 2) 0 * 256 + bl.getD (4 * i + 3) 0)

/-- Extend 16 schedule words to 64. -/
def shaSchedule (w16 : List Nat) : List Nat :=
  (List.range 48).foldl (fun w _ =>
    let n := w.length
    w ++ [w32 (smallSigma1 (w.getD (n - 2) 0) + w.getD (n - 7) 0 +
               smallSigma0 (w.getD (n - 15) 0) + w.getD (n - 16) 0)]) w16

structure ShaState where
  a : Nat
  b : Nat
  c : Nat
  d : Nat
  e : Nat
  f : Nat
  g : Nat
  hh : Nat

def shaRound (w : List Nat) (st : ShaState) (t : Nat) : ShaState :=
  let t1 := w32 (st.hh + bigSigma1 st.e + shaCh st.e st.f st.g + shaK.getD t 0 + w.getD t 0)
  let t2 := w32 (bigSigma0 st.a + shaMaj st.a st.b st.c)
  ⟨w32 (t1 + t2), st.a, st.b, st.c, w32 (st.d + t1), st.e, st.f, st.g⟩

/-- One SHA-256 compression step over a 64-byte block. -/
def shaCompress (h : List Nat) (bl : List Nat) : List Nat :=
  let w := shaSchedule (words16 bl)
  let st0 : ShaState :=
    ⟨h.getD 0 0, h.getD 1 0, h.getD 2 0, h.getD 3 0, h.getD 4 0, h.getD 5 0, h.getD 6 0, h.getD 7 0⟩
  let st := (List.range 64).foldl (shaRound w) st0
  [w32 (h.getD 0 0 + st.a), w32 (h.getD 1 0 + st.b), w32 (h.getD 2 0 + st.c),
   w32 (h.getD 3 0 + st.d), w32 (h.getD 4 0 + st.e), w32 (h.getD 5 0 + st.f),
   w32 (h.getD 6 0 + st.g), w32 (h.getD 7 0 + st.hh)]

/-- SHA-256 digest (32 byte values) of a byte list. -/
def sha256Digest (msg : List Nat) : List Nat :=
  let hFinal := (blocks64 (shaPad msg)).foldl shaCompress shaH0
  (hFinal.map (fun x => [(x >>> 24) % 256, (x >>> 16) % 256, (x >>> 8) % 256, x % 256])).flatten

def hexDigit (n : Nat) : Char :=
  if n < 10 then Char.ofNat (48 + n) else Char.ofNat (87 + n)

/-- Lowercase hex string of a byte list (Python `hexdigest()`). -/
def bytesToHex (bs : List Nat) : String :=
  String.mk ((bs.map (fun b => [hexDigit (b / 16), hexDigit (b % 16)])).flatten)

/-- `hashlib.sha256(bytes).hexdigest()`. -/
def sha256HexOfBytes (msg : List Nat) : String := bytesToHex (sha256Digest msg)

/-- `hashlib.sha256(s.encode("utf-8")).hexdigest()` — the form used by
`audit._sha256` and `chunking.sha256_text`. -/
def sha256HexOfString (s : String) : String := sha256HexOfBytes (utf8Bytes s)

/-! ## Canonical JSON (`json.dumps(..., ensure_ascii=False, sort_keys=True,
separators=(",", ":"))` as used by `audit._stable_json`)

`Json` mirrors the Python values the services serialize.  Lists are mutual
inductives (rather than nested `List`) so the serializer is plain structural
recursion and evaluates inside the kernel.  Python `float` values that the
code stores (e.g. the stub confidence `0.55`) are carried as their `repr`
literal in `numLit`. -/

mutual
inductive Json where
  | null : Json
  | bool (b : Bool) : Json
  | str (s : String) : Json
  | int (n : Int) : Json
  | numLit (lit : String) : Json
  | arr (xs : JsonList) : Json
  | obj (fs : JsonFields) : Json
deriving DecidableEq
inductive JsonList where
  | nil : JsonList
  | cons (hd : Json) (tl : JsonList) : JsonList
deriving DecidableEq
inductive JsonFields where
  | nil : JsonFields
  | cons (k : String) (v : Json) (tl : JsonFields) : JsonFields
deriving DecidableEq
end

/-- JSON string escaping as Python's serializer performs it with
`ensure_ascii=False`: only `"`, `\`, and control characters below 0x20 are
escaped; everything else (including non-ASCII) is emitted verbatim. -/
def jsonEscapeChar (c : Char) : List Char :=
  if c = '"' then ['\\', '"']
  else if c = '\\' then ['\\', '\\']
  else if c = '\n' then ['\\', 'n']
  else if c = '\t' then ['\\', 't']
  else if c = '\x0d' then ['\\', 'r']
  else if c.toNat = 8 then ['\\', 'b']
  else if c.toNat = 12 then ['\\', 'f']
  else if c.toNat < 32 then ['\\', 'u', '0', '0', hexDigit (c.toNat / 16), hexDigit (c.toNat % 16)]
  else [c]

def jsonStrLit (s : String) : List Char :=
  '"' :: (s.data.map jsonEscapeChar).flatten ++ ['"']

/-- Insert a field into a key-sorted field list (ascending code-point order,
as Python `sort_keys=True` sorts). -/
def insertField (k : String) (v : Json) : JsonFields → JsonFields
  | .nil => .cons k v .nil
  | .cons k' v' tl =>
    if decide (k ≤ k') then .cons k v (.cons k' v' tl) else .cons k' v' (insertField k v tl)

def sortFields : JsonFields → JsonFields
  | .nil => .nil
  | .cons k v tl => insertField k v (sortFields tl)

mutual
/-- Recursively sort every object's keys (the effect of `sort_keys=True`). -/
def sortJson : Json → Json
  | .arr xs => .arr (sortJsonList xs)
  | .obj fs => .obj (sortFields (sortJsonFields fs))
  | j => j
def sortJsonList : JsonList → JsonList
  | .nil => .nil
  | .cons x tl => .cons (sortJson x) (sortJsonList tl)
def sortJsonFields : JsonFields → JsonFields
  | .nil => .nil
  | .cons k v tl => .cons k (sortJson v) (sortJsonFields tl)
end

mutual
/-- Compact serialization with separators `(",", ":")`. -/
def serJson : Json → List Char
  | .null => "null".data
  | .bool b => if b then "true".data else "false".data
  | .str s => jsonStrLit s
  | .int n => (toString n).data
  | .numLit lit => lit.data
  | .arr xs => '[' :: serJsonList xs ++ [']']
  | .obj fs => Char.ofNat 123 :: serJsonFields fs ++ [Char.ofNat 125]
def serJsonList : JsonList → List Char
  | .nil => []
  | .cons x .nil => serJson x
  | .cons x (.cons y tl) => serJson x ++ ',' :: serJsonList (.cons y tl)
def serJsonFields : JsonFields → List Char
  | .nil => []
  | .cons k v .nil => jsonStrLit k ++ ':' :: serJson v
  | .cons k v (.cons k' v' tl) =>
    (jsonStrLit k ++ ':' :: serJson v) ++ ',' :: serJsonFields (.cons k' v' tl)
end

/-- `audit._stable_json`: canonical JSON text of a value. -/
def stableJson (j : Json) : String := String.mk (serJson (sortJson j))

/-! ## `app/refdata/rules.py` -/

/-- Error kinds raised as `HTTPException(status_code=400, detail=...)` by the
services; the constructor records which `detail` message was raised. -/
inductive Err where
  | missingFields (fields : List String) : Err
  | payloadTooLarge (maxMb : Int) : Err
  | primaryAxisMismatch (stored provided : String) : Err
  | invalidStatus (status : String) : Err
  | parentNotFound : Err
  | parentWrongDocument : Err
deriving DecidableEq

/-- Every error the ingestion services raise carries HTTP status 400. -/
def Err.httpStatus : Err → Nat := fun _ => 400

/-- Upload metadata dict as the API layer builds it: the four identity fields,
`tenant_id` and `effective_year` are required form fields; the rest may be
absent (`None`). -/
structure Meta where
  title : String
  jurisdiction : String
  regulation_family : String
  instrument_type : String
  primary_axis : Option String
  tenant_id : String
  effective_year : Int
  effective_date : Option String
  version_label : Option String
  parent_version_id : Option String
deriving DecidableEq

/-- `request_payload.get(f) in (None, "", [])` for the metadata dict: a field
is missing when absent or empty.  Unknown field names behave like Python
`dict.get` returning `None`. -/
def metaFieldMissing (m : Meta) : String → Bool
  | "title" => m.title = ""
  | "jurisdiction" => m.jurisdiction = ""
  | "regulation_family" => m.regulation_family = ""
  | "instrument_type" => m.instrument_type = ""
  | "primary_axis" => !strTruthy m.primary_axis
  | "tenant_id" => m.tenant_id = ""
  | "effective_year" => false
  | "effective_date" => !strTruthy m.effective_date
  | "version_label" => !strTruthy m.version_label
  | "parent_version_id" => !strTruthy m.parent_version_id
  | _ => true

/-- Active `EPIC1_UPLOAD_RULES` row content (`rule_json`). -/
structure RulesRow where
  required_fields : List String
  max_pdf_mb : Option Int
deriving DecidableEq

/-- `rules.enforce_upload_rules`. -/
def enforce_upload_rules (rules : RulesRow) (m : Meta) : Except Err Unit :=
  let missing := rules.required_fields.filter (metaFieldMissing m)
  if missing.isEmpty then .ok () else .error (.missingFields missing)

def productKeywords : List String :=
  ["battery", "batteries", "aluminium", "cement clinker", "steel", "fertilizer", "hydrogen"]

def themeKeywords : List String :=
  ["disclosure", "reporting", "framework", "standard", "taxonomy", "csrd", "esrs"]

/-- `rules.derive_primary_axis_deterministic`: haystack is
`" ".join([(title or ""), (regulation_family or ""), (instrument_type or "")]).lower()`. -/
def derive_primary_axis_deterministic (jurisdiction title regulation_family instrument_type :
    Option String) : String × String :=
  if strTruthy jurisdiction && pyStrip (jurisdiction.getD "") ≠ "" then
    ("jurisdiction", "DETERMINISTIC_RULE")
  else
    let hay := pyLower (spaceJoin [title.getD "", regulation_family.getD "", instrument_type.getD ""])
    if productKeywords.any (fun k => strContainsSub hay k) then
      ("product_scope", "DETERMINISTIC_RULE")
    else if themeKeywords.any (fun k => strContainsSub hay k) then
      ("theme", "DETERMINISTIC_RULE")
    else
      ("theme", "DETERMINISTIC_RULE")

/-- The derivation rule exactly as the specification sentence words it:
keyword matching on the lowercased *plain concatenation*
`title ++ regulation_family ++ instrument_type` (no separator). -/
def claimDerivePrimaryAxis (jurisdiction title regulation_family instrument_type :
    Option String) : String × String :=
  if strTruthy jurisdiction && pyStrip (jurisdiction.getD "") ≠ "" then
    ("jurisdiction", "DETERMINISTIC_RULE")
  else
    let hay := pyLower ((title.getD "") ++ (regulation_family.getD "") ++ (instrument_type.getD ""))
    if productKeywords.any (fun k => strContainsSub hay k) then
      ("product_scope", "DETERMINISTIC_RULE")
    else if themeKeywords.any (fun k => strContainsSub hay k) then
      ("theme", "DETERMINISTIC_RULE")
    else
      ("theme", "DETERMINISTIC_RULE")

/-- The derivation rule with the amendment: the keyword haystack is the
*space-joined* lowercased concatenation, matching the code. -/
def amendedDerivePrimaryAxis (jurisdiction title regulation_family instrument_type :
    Option String) : String × String :=
  if strTruthy jurisdiction && pyStrip (jurisdiction.getD "") ≠ "" then
    ("jurisdiction", "DETERMINISTIC_RULE")
  else
    let hay := pyLower (spaceJoin [title.getD "", regulation_family.getD "", instrument_type.getD ""])
    if productKeywords.any (fun k => strContainsSub hay k) then
      ("product_scope", "DETERMINISTIC_RULE")
    else if themeKeywords.any (fun k => strContainsSub hay k) then
      ("theme", "DETERMINISTIC_RULE")
    else
      ("theme", "DETERMINISTIC_RULE")

/-! ## `app/services/chunking.py` -/

/-- One entry of the `page_map` artifact: inclusive character interval
`[start_char, end_char]` belonging to `page`. -/
structure PageEntry where
  page : Int
  start_char : Nat
  end_char : Nat
deriving DecidableEq

/-- `p["start_char"] <= pos <= p["end_char"]`. -/
def pageHit (pos : Nat) (p : PageEntry) : Bool :=
  p.start_char ≤ pos && pos ≤ p.end_char

/-- `chunking._page_for_offset`: first page-map entry whose inclusive interval
contains `pos`; fall back to the last entry's page, or 1 on an empty map. -/
def pageForOffset (pm : List PageEntry) (pos : Nat) : Int :=
  match pm.find? (pageHit pos) with
  | some p => p.page
  | none =>
    match pm.getLast? with
    | some p => p.page
    | none => 1

/-- A chunk as `SimpleDeterministicChunker.chunk` emits it. -/
structure ChunkOut where
  start_char : Nat
  end_char : Nat
  page_start : Int
  page_end : Int
  text_sha256 : String
deriving DecidableEq

/-- `stable_text.find("\n\n", pos)` scanning a character-list suffix; `pos` is
the absolute position of the suffix head.  Returns the absolute index of the
first `"\n\n"` occurrence, or the text length when there is none (the code
replaces Python's `-1` by `n`). -/
def findDblNlAux : List Char → Nat → Nat
  | [], pos => pos
  | [_], pos => pos + 1
  | c1 :: c2 :: rest, pos =>
    if c1 = '\n' && c2 = '\n' then pos else findDblNlAux (c2 :: rest) (pos + 1)

def findDblNl (cs : List Char) (i : Nat) : Nat := findDblNlAux (cs.drop i) i

/-- The inner per-paragraph loop: emit `(start, end)` cut points until the
cursor reaches `para_end`.  Structural recursion on the fuel
`para_end - start`, which suffices whenever `max_len ≥ 1` because the cursor
then strictly advances; with `max_len = 0` (where the Python loop would not
advance) the fuel simply runs out. -/
def innerPairs : Nat → Nat → Nat → Nat → Nat → List (Nat × Nat)
  | 0, _, _, _, _ => []
  | fuel + 1, maxLen, overlap, paraEnd, start =>
    if start < paraEnd then
      let e := min (start + maxLen) paraEnd
      let start' := if overlap = 0 then e else max (start + 1) (e - overlap)
      (start, e) :: innerPairs fuel maxLen overlap paraEnd start'
    else []

/-- The outer per-paragraph loop: find the next `"\n\n"`, run the inner loop on
`[i, para_end)`, continue at `para_end + 2`.  Fuel `cs.length` suffices since
`i` advances by at least 2 per iteration. -/
def outerPairs : Nat → List Char → Nat → Nat → Nat → List (Nat × Nat)
  | 0, _, _, _, _ => []
  | fuel + 1, cs, maxLen, overlap, i =>
    if i < cs.length then
      let paraEnd := findDblNl cs i
      innerPairs (paraEnd - i) maxLen overlap paraEnd i ++
        outerPairs fuel cs maxLen overlap (paraEnd + 2)
    else []

/-- The `emit` closure: skip the candidate when its slice is whitespace-only,
otherwise record offsets, page span and text hash. -/
def emitChunk (cs : List Char) (pm : List PageEntry) (se : Nat × Nat) : Option ChunkOut :=
  let text := (cs.drop se.1).take (se.2 - se.1)
  if allSpace text then none
  else
    some ⟨se.1, se.2, pageForOffset pm se.1, pageForOffset pm (max se.1 (se.2 - 1)),
      sha256HexOfString (String.mk text)⟩

structure SimpleDeterministicChunker where
  max_chars : Int := 1500

structure ChunkManifest where
  max_chars : Int
  overlap_chars : Int
  split : String
  count : Nat
deriving DecidableEq

/-- `int(max_chars or self.max_chars)`: `None` and `0` fall back to the
instance default. -/
def chunkMaxLen (instMax : Int) : Option Int → Int
  | none => instMax
  | some v => if v = 0 then instMax else v

/-- `overlap = max(0, int(overlap_chars))`, then clamped to `max_len - 1` when
`max_len > 1`, else forced to 0. -/
def chunkOverlap (maxLen : Int) (overlapChars : Int) : Int :=
  let o := max 0 overlapChars
  if maxLen > 1 then min o (maxLen - 1) else 0

/-- `SimpleDeterministicChunker.chunk`. -/
def SimpleDeterministicChunker.chunk (self : SimpleDeterministicChunker)
    (stable_text : String) (page_map : List PageEntry)
    (max_chars : Option Int := none) (overlap_chars : Int := 0) :
    List ChunkOut × ChunkManifest :=
  let cs := stable_text.data
  let maxLen := chunkMaxLen self.max_chars max_chars
  let overlap := chunkOverlap maxLen overlap_chars
  let pairs := outerPairs cs.length cs maxLen.toNat overlap.toNat 0
  let chunks := pairs.filterMap (emitChunk cs page_map)
  (chunks, ⟨maxLen, overlap, "paragraph_then_hard", chunks.length⟩)

/-- The page map lists contiguous inclusive intervals that partition
`[0, n - 1]`, starting at `lo` (the claim's "intervals partition
`[0, len(stable_text)]`"). -/
def pagesCoverB (lo n : Nat) : List PageEntry → Bool
  | [] => lo == n
  | p :: rest =>
    (p.start_char == lo) && (p.start_char ≤ p.end_char) && (p.end_char < n) &&
      pagesCoverB (p.end_char + 1) n rest

/-! ## Database state

One record holds every table the EPIC-1 services touch, plus the process
settings, the fresh-`uuid4` counter and a logical clock for `uploaded_at`.
Rows are kept in insertion order; `ORDER BY ... DESC` reads scan from the
tail. -/

/-- Process settings relevant to ingestion (a frozen snapshot, as in
`app/settings.py`). -/
structure AppSettings where
  MAX_PDF_MB : Int
  ENABLE_LLM_PRIMARY_AXIS_SUGGESTION : Bool
  LLM_MODEL_NAME : String
  LLM_MODEL_VERSION : String
deriving DecidableEq

structure DocumentRow where
  document_id : String
  title : String
  jurisdiction : String
  regulation_family : String
  instrument_type : String
  primary_axis : String
  primary_axis_source : String
deriving DecidableEq

structure VersionRow where
  version_id : String
  document_id : String
  version_label : Option String
  effective_date : Option String
  status : String
  parent_version_id : Option String
  tenant_id : String
  effective_year : Int
  uploaded_by : String
  raw_sha256 : String
  file_id : Option String
  uploaded_at : Option Nat
  artifacts_json : Option Json
deriving DecidableEq

structure EvidenceRow where
  file_id : String
  version_id : String
  sha256 : String
  mime_type : String
  size_bytes : Nat
  storage_uri : String
deriving DecidableEq

structure SuggestionRow where
  suggestion_id : String
  version_id : String
  suggested_axis : String
  model_name : String
  model_version : String
  confidence : String
  details_json : Json
deriving DecidableEq

structure AuditRow where
  event_id : String
  entity_type : String
  entity_id : String
  action : String
  actor : String
  correlation_id : String
  details : Json
  prev_event_hash : Option String
  event_hash : Option String
deriving DecidableEq

structure St where
  settings : AppSettings
  ref_rules : Option RulesRow
  documents : List DocumentRow
  versions : List VersionRow
  evidence_files : List EvidenceRow
  suggestions : List SuggestionRow
  audit_log : List AuditRow
  blobs : List (String × List Nat)
  ctr : Nat
  clock : Nat
deriving DecidableEq

def freshUuid (n : Nat) : String := "uuid-" ++ toString n

/-- `str(uuid4())`, modelled by drawing from the state's fresh-name counter. -/
def St.freshId (s : St) : String × St :=
  (freshUuid s.ctr, { s with ctr := s.ctr + 1 })

/-! ## `app/services/audit.py` -/

def entityMatches (etype eid : String) (r : AuditRow) : Bool :=
  r.entity_type == etype && r.entity_id == eid

/-- `AuditService.last_hash_for_entity`: the `event_hash` of the most recent
row for that entity with a non-null hash (`ORDER BY at DESC LIMIT 1`,
modelled by scanning from the tail of the insertion-ordered log). -/
def AuditService.last_hash_for_entity (log : List AuditRow) (etype eid : String) :
    Option String :=
  match log.reverse.find? (fun r => entityMatches etype eid r && r.event_hash.isSome) with
  | some r => r.event_hash
  | none => none

def optStrJson : Option String → Json
  | none => .null
  | some s => .str s

/-- The payload dict `AuditService.write` serializes and hashes. -/
def auditPayload (event_id etype eid action actor correlation_id : String)
    (details : Json) (prev : Option String) : Json :=
  .obj (.cons "event_id" (.str event_id)
    (.cons "entity_type" (.str etype)
      (.cons "entity_id" (.str eid)
        (.cons "action" (.str action)
          (.cons "actor" (.str actor)
            (.cons "correlation_id" (.str correlation_id)
              (.cons "details" details
                (.cons "prev_event_hash" (optStrJson prev) .nil))))))))

/-- The row `AuditService.write` inserts when run on state `s`: fresh
`event_id`, per-entity `prev_event_hash` lookup, and the SHA-256 of the
canonical payload JSON when the chain is enabled. -/
def auditRowOf (s : St) (etype eid action actor correlation_id : String)
    (details : Json) (enable_hash_chain : Bool) : AuditRow :=
  let event_id := freshUuid s.ctr
  let prev := if enable_hash_chain then AuditService.last_hash_for_entity s.audit_log etype eid
    else none
  let payload := auditPayload event_id etype eid action actor correlation_id details prev
  let event_hash := if enable_hash_chain then some (sha256HexOfString (stableJson payload))
    else none
  ⟨event_id, etype, eid, action, actor, correlation_id, details, prev, event_hash⟩

/-- `AuditService.write`: build the payload, hash its canonical JSON when the
chain is enabled, insert the row, return the generated `event_id`. -/
def AuditService.write (s : St) (etype eid action actor correlation_id : String)
    (details : Json) (enable_hash_chain : Bool := true) : St × String :=
  ({ s with
      audit_log := s.audit_log ++
        [auditRowOf s etype eid action actor correlation_id details enable_hash_chain]
      ctr := s.ctr + 1 },
    freshUuid s.ctr)

/-! ## `app/services/registry.py` -/

def ALLOWED_STATUSES : List String := ["PENDING", "ACTIVE", "SUPERSEDED", "FAILED"]

def RegistryService.find_document_by_metadata (s : St)
    (title jurisdiction regulation_family instrument_type : String) : Option DocumentRow :=
  s.documents.find? (fun d =>
    d.title == title && d.jurisdiction == jurisdiction &&
    d.regulation_family == regulation_family && d.instrument_type == instrument_type)

def RegistryService.create_document (s : St)
    (title jurisdiction regulation_family instrument_type primary_axis primary_axis_source :
      String) : St × String :=
  let (document_id, s) := s.freshId
  ({ s with documents := s.documents ++
      [⟨document_id, title, jurisdiction, regulation_family, instrument_type,
        primary_axis, primary_axis_source⟩] }, document_id)

/-- The insert performed by `create_version` once its validations pass: a row
with `file_id` as given and no `uploaded_at` yet. -/
def RegistryService.insertVersion (s : St) (document_id tenant_id : String)
    (effective_year : Int) (uploaded_by raw_sha256 : String)
    (version_label effective_date parent_version_id : Option String)
    (file_id : Option String) (status : String) : St × String :=
  let (version_id, s) := s.freshId
  ({ s with versions := s.versions ++
      [⟨version_id, document_id, version_label, effective_date, status, parent_version_id,
        tenant_id, effective_year, uploaded_by, raw_sha256, file_id, none, none⟩] },
    version_id)

/-- `RegistryService.create_version`: rejects an invalid status, then
validates the optional parent (must exist and belong to the same document),
then inserts the row. -/
def RegistryService.create_version (s : St) (document_id tenant_id : String)
    (effective_year : Int) (uploaded_by raw_sha256 : String)
    (version_label effective_date parent_version_id : Option String)
    (file_id : Option String) (status : String) : Except Err (St × String) :=
  if ¬ status ∈ ALLOWED_STATUSES then .error (.invalidStatus status)
  else if strTruthy parent_version_id then
    match s.versions.find? (fun v => v.version_id == parent_version_id.getD "") with
    | none => .error .parentNotFound
    | some parent =>
      if parent.document_id ≠ document_id then .error .parentWrongDocument
      else .ok (RegistryService.insertVersion s document_id tenant_id effective_year
        uploaded_by raw_sha256 version_label effective_date parent_version_id file_id status)
  else .ok (RegistryService.insertVersion s document_id tenant_id effective_year
    uploaded_by raw_sha256 version_label effective_date parent_version_id file_id status)

def RegistryService.set_version_file_id (s : St) (version_id file_id : String) : St :=
  { s with
    versions := s.versions.map (fun v =>
      if v.version_id == version_id then
        { v with file_id := some file_id, uploaded_at := some s.clock }
      else v),
    clock := s.clock + 1 }

def RegistryService.set_artifacts_json (s : St) (version_id : String) (artifacts : Json) : St :=
  { s with versions := s.versions.map (fun v =>
      if v.version_id == version_id then { v with artifacts_json := some artifacts } else v) }

/-- `UPDATE ... SET status='SUPERSEDED' WHERE version_id=%s AND status='ACTIVE'`. -/
def RegistryService.mark_parent_superseded (s : St) (parent_version_id : String) : St :=
  { s with versions := s.versions.map (fun v =>
      if v.version_id == parent_version_id && v.status == "ACTIVE" then
        { v with status := "SUPERSEDED" }
      else v) }

/-- `UPDATE ... SET status='ACTIVE' WHERE version_id=%s AND status='PENDING'`. -/
def RegistryService.set_status_pending_to_active (s : St) (version_id : String) : St :=
  { s with versions := s.versions.map (fun v =>
      if v.version_id == version_id && v.status == "PENDING" then
        { v with status := "ACTIVE" }
      else v) }

/-- `UPDATE ... SET status='FAILED' WHERE version_id=%s AND status='PENDING'`. -/
def RegistryService.set_status_pending_to_failed (s : St) (version_id : String) : St :=
  { s with versions := s.versions.map (fun v =>
      if v.version_id == version_id && v.status == "PENDING" then
        { v with status := "FAILED" }
      else v) }

/-- `INSERT ... ON CONFLICT (version_id) DO UPDATE`: the `uuid4()` argument is
evaluated in either case; on conflict, the existing row keeps its
`suggestion_id` and the listed columns are replaced. -/
def RegistryService.upsert_primary_axis_suggestion (s : St)
    (version_id suggested_axis model_name model_version confidence : String)
    (details_json : Json) : St :=
  let (suggestion_id, s) := s.freshId
  if s.suggestions.any (fun r => r.version_id == version_id) then
    { s with suggestions := s.suggestions.map (fun r =>
        if r.version_id == version_id then
          { r with
            suggested_axis := suggested_axis
            model_name := model_name
            model_version := model_version
            confidence := confidence
            details_json := details_json }
        else r) }
  else
    { s with suggestions := s.suggestions ++
        [⟨suggestion_id, version_id, suggested_axis, model_name, model_version, confidence,
          details_json⟩] }

/-! ## `app/services/evidence_store.py` -/

/-- `SELECT * FROM evidence_files WHERE sha256=%s ORDER BY created_at DESC
LIMIT 1`: the newest matching row. -/
def EvidenceStore.find_by_sha (s : St) (sha256 : String) : Option EvidenceRow :=
  s.evidence_files.reverse.find? (fun e => e.sha256 == sha256)

/-- `EvidenceStore.create_evidence`: fresh `file_id`, write-once blob under
`evidence/{document_id}/{version_id}/{file_id}.pdf`, insert the row. -/
def EvidenceStore.create_evidence (s : St) (sha256 : String) (pdf_bytes : List Nat)
    (document_id version_id : String) : St × String × String × String :=
  let (file_id, s) := s.freshId
  let key := "evidence/" ++ document_id ++ "/" ++ version_id ++ "/" ++ file_id ++ ".pdf"
  let storage_uri := "s3://epic1/" ++ key
  let s := { s with
    blobs := if s.blobs.any (fun b => b.1 == key) then s.blobs else s.blobs ++ [(key, pdf_bytes)] }
  ({ s with evidence_files := s.evidence_files ++
      [⟨file_id, version_id, sha256, "application/pdf", pdf_bytes.length, storage_uri⟩] },
    file_id, key, storage_uri)

/-! ## `app/services/ingestion.py` -/

/-- Modelled from the spec: `app/services/fingerprint.py` is not in the source
tree (only its import and call site are).  §4.1 of the specification defines
`sha256_bytes(b) → hex-string` as SHA-256 over the raw PDF bytes with no
canonicalization. -/
def FingerprintService.sha256_bytes (b : List Nat) : String := sha256HexOfBytes b

/-- The metadata dict serialized into the `REQUEST.RECEIVED` audit details. -/
def metaJson (m : Meta) : Json :=
  .obj (.cons "jurisdiction" (.str m.jurisdiction)
    (.cons "title" (.str m.title)
      (.cons "regulation_family" (.str m.regulation_family)
        (.cons "instrument_type" (.str m.instrument_type)
          (.cons "primary_axis" (optStrJson m.primary_axis)
            (.cons "tenant_id" (.str m.tenant_id)
              (.cons "effective_year" (.int m.effective_year)
                (.cons "effective_date" (optStrJson m.effective_date)
                  (.cons "version_label" (optStrJson m.version_label)
                    (.cons "parent_version_id" (optStrJson m.parent_version_id) .nil))))))))))

structure Req where
  pdf_bytes : List Nat
  meta : Meta
  actor : String
  force_new_version : Bool
deriving DecidableEq

structure SuggestionOut where
  value : String
  model_name : String
  model_version : String
  confidence : String
deriving DecidableEq

structure Resp where
  http_status : Nat
  ingestion_status : String
  correlation_id : String
  document_id : String
  version_id : String
  file_id : String
  sha256 : String
  primary_axis_source : Option String
  primary_axis_suggestion : Option SuggestionOut
deriving DecidableEq

structure DedupeHit where
  document_id : String
  version_id : String
  file_id : String
  sha256 : String
deriving DecidableEq

/-- `IngestionService._rules`: the active `EPIC1_UPLOAD_RULES` row, or the
hard-coded fallback `{"required_fields": [], "max_pdf_mb": settings.MAX_PDF_MB}`. -/
def IngestionService.getRules (s : St) : RulesRow :=
  match s.ref_rules with
  | some r => r
  | none => ⟨[], some s.settings.MAX_PDF_MB⟩

/-- `ORDER BY v.uploaded_at DESC` comparison: Postgres sorts `DESC` with nulls
first, then larger timestamps first. -/
def uploadedDescBefore (a b : VersionRow) : Bool :=
  match a.uploaded_at, b.uploaded_at with
  | none, _ => true
  | some _, none => false
  | some x, some y => y ≤ x

def insertVersionDesc (v : VersionRow) : List VersionRow → List VersionRow
  | [] => [v]
  | w :: ws => if uploadedDescBefore v w then v :: w :: ws else w :: insertVersionDesc v ws

def sortVersionsDesc : List VersionRow → List VersionRow
  | [] => []
  | v :: vs => insertVersionDesc v (sortVersionsDesc vs)

/-- `IngestionService._dedupe_match_existing`: pick an evidence row with the
sha (`LIMIT 1` with no `ORDER BY`, modelled as the first row in insertion
order), then scan the versions on that file (newest `uploaded_at` first,
joined to their document) for one whose document carries identical
`(title, jurisdiction, regulation_family, instrument_type)`. -/
def IngestionService.dedupe_match_existing (s : St) (sha256 : String) (meta : Meta) :
    Option DedupeHit :=
  match s.evidence_files.find? (fun e => e.sha256 == sha256) with
  | none => none
  | some f =>
    let rows := sortVersionsDesc (s.versions.filter (fun v =>
      v.raw_sha256 == sha256 && v.file_id == some f.file_id))
    match rows.find? (fun v =>
      match s.documents.find? (fun d => d.document_id == v.document_id) with
      | some d =>
        d.jurisdiction == meta.jurisdiction && d.regulation_family == meta.regulation_family &&
        d.title == meta.title && d.instrument_type == meta.instrument_type
      | none => false) with
    | some r => some ⟨r.document_id, r.version_id, f.file_id, sha256⟩
    | none => none

/-- Step 5 of the orchestrator: resolve the truth `primary_axis`.  A supplied
non-blank value is stripped and treated as `UPLOAD` truth (the metadata dict
is not modified); otherwise the deterministic derivation runs and its value is
written back into the metadata.  Returns
`(primary_axis_value, primary_axis_source, mutated meta)`. -/
def IngestionService.resolveAxis (m : Meta) : String × String × Meta :=
  if strTruthy m.primary_axis && pyStrip (m.primary_axis.getD "") ≠ "" then
    (pyStrip (m.primary_axis.getD ""), "UPLOAD", m)
  else
    let d := derive_primary_axis_deterministic (some m.jurisdiction) (some m.title)
      (some m.regulation_family) (some m.instrument_type)
    (d.1, d.2, { m with primary_axis := some d.1 })

/-- Step 6: find-or-create the document.  On find, fail when the (possibly
written-back) `meta["primary_axis"]` and the stored axis are both truthy and
differ.  Returns the state, `document_id`, the `created_new_doc` flag and
`primary_axis_source_out`. -/
def IngestionService.docStep (s : St) (m' : Meta)
    (primary_axis_value primary_axis_source : String) :
    Except Err (St × String × Bool × String) :=
  match RegistryService.find_document_by_metadata s m'.title m'.jurisdiction
    m'.regulation_family m'.instrument_type with
  | some doc =>
    match m'.primary_axis with
    | some p =>
      if p ≠ "" && doc.primary_axis ≠ "" && p ≠ doc.primary_axis then
        .error (.primaryAxisMismatch doc.primary_axis p)
      else .ok (s, doc.document_id, false, doc.primary_axis_source)
    | none => .ok (s, doc.document_id, false, doc.primary_axis_source)
  | none =>
    let r := RegistryService.create_document s m'.title m'.jurisdiction
      m'.regulation_family m'.instrument_type primary_axis_value primary_axis_source
    .ok (r.1, r.2, true, primary_axis_source)

/-- Step 8, first half: reuse the newest evidence row for the sha when
`force_new_version` is set and one exists, otherwise create fresh evidence.
Returns the state and the file id to attach. -/
def IngestionService.attachFile (s2 : St) (req : Req) (sha did vid : String) : St × String :=
  match EvidenceStore.find_by_sha s2 sha with
  | some e =>
    if req.force_new_version then (s2, e.file_id)
    else
      let r := EvidenceStore.create_evidence s2 sha req.pdf_bytes did vid
      (r.1, r.2.1)
  | none =>
    let r := EvidenceStore.create_evidence s2 sha req.pdf_bytes did vid
    (r.1, r.2.1)

/-- Steps 9-10: supersede the parent when one was supplied (with its audit
event), then audit `REGISTRY.VERSION_CREATED`. -/
def IngestionService.postVersionAudit (s4 : St) (req : Req)
    (correlation_id vid : String) (m' : Meta) (did file_id sha : String) : St :=
  let s5 :=
    if strTruthy m'.parent_version_id then
      let sa := RegistryService.mark_parent_superseded s4 (m'.parent_version_id.getD "")
      (AuditService.write sa "version" (m'.parent_version_id.getD "")
        "EPIC1.PARENT_VERSION_SUPERSEDED" req.actor correlation_id
        (.obj (.cons "child_version_id" (.str vid) .nil)) true).1
    else s4
  (AuditService.write s5 "version" vid "EPIC1.REGISTRY.VERSION_CREATED"
    req.actor correlation_id
    (.obj (.cons "document_id" (.str did)
      (.cons "file_id" (.str file_id) (.cons "raw_sha256" (.str sha) .nil)))) true).1

/-- Step 11: when enabled, store the stub LLM suggestion (derived-only) and
audit it. -/
def IngestionService.llmSuggest (s6 : St) (req : Req) (correlation_id vid : String)
    (m' : Meta) : St × Option SuggestionOut :=
  let suggested :=
    (derive_primary_axis_deterministic (some m'.jurisdiction) (some m'.title)
      (some m'.regulation_family) (some m'.instrument_type)).1
  if s6.settings.ENABLE_LLM_PRIMARY_AXIS_SUGGESTION then
    let sb := RegistryService.upsert_primary_axis_suggestion s6 vid suggested
      s6.settings.LLM_MODEL_NAME s6.settings.LLM_MODEL_VERSION "0.55"
      (.obj (.cons "method" (.str "stub_rule_suggestion") .nil))
    let sc := (AuditService.write sb "version" vid
      "EPIC1.LLM.PRIMARY_AXIS_SUGGESTED" req.actor correlation_id
      (.obj (.cons "suggested_axis" (.str suggested)
        (.cons "confidence" (.numLit "0.55")
          (.cons "model_name" (.str s6.settings.LLM_MODEL_NAME)
            (.cons "model_version" (.str s6.settings.LLM_MODEL_VERSION) .nil))))) true).1
    (sc, some ⟨suggested, s6.settings.LLM_MODEL_NAME, s6.settings.LLM_MODEL_VERSION, "0.55"⟩)
  else (s6, none)

/-- Steps 8-13 of the orchestrator, after the `PENDING` version row exists:
attach evidence (reused or fresh), supersede the parent if any, audit,
optionally store the derived-only LLM suggestion, and build the 201
response. -/
def IngestionService.finishCreate (s2 : St) (req : Req)
    (sha correlation_id document_id version_id : String) (m' : Meta)
    (created_new_doc : Bool) (primary_axis_source_out : String) : St × Except Err Resp :=
  let fs := IngestionService.attachFile s2 req sha document_id version_id
  let file_id := fs.2
  let s4 := RegistryService.set_version_file_id fs.1 version_id file_id
  let s6 := IngestionService.postVersionAudit s4 req correlation_id version_id m'
    document_id file_id sha
  let llm := IngestionService.llmSuggest s6 req correlation_id version_id m'
  let ingestion_status :=
    if (EvidenceStore.find_by_sha s2 sha).isSome && req.force_new_version then
      "CREATED_NEW_VERSION_REUSED_FILE"
    else if created_new_doc then "CREATED_NEW_DOCUMENT_AND_VERSION"
    else "CREATED_NEW_VERSION"
  (llm.1, .ok ⟨201, ingestion_status, correlation_id, document_id, version_id, file_id,
    sha, some primary_axis_source_out, llm.2⟩)

/-- The non-dedupe tail of `IngestionService.ingest_request` (source lines
137-275): resolve the primary axis, find-or-create the document (failing on a
mismatch), create the `PENDING` version, then run `finishCreate`. -/
def IngestionService.ingestCreate (s : St) (req : Req) (sha correlation_id : String) :
    St × Except Err Resp :=
  let rAxis := IngestionService.resolveAxis req.meta
  match IngestionService.docStep s rAxis.2.2 rAxis.1 rAxis.2.1 with
  | .error e => (s, .error e)
  | .ok (s1, document_id, created_new_doc, primary_axis_source_out) =>
    match RegistryService.create_version s1 document_id rAxis.2.2.tenant_id
      rAxis.2.2.effective_year req.actor sha rAxis.2.2.version_label rAxis.2.2.effective_date
      rAxis.2.2.parent_version_id none "PENDING" with
    | .error e => (s1, .error e)
    | .ok (s2, version_id) =>
      IngestionService.finishCreate s2 req sha correlation_id document_id version_id
        rAxis.2.2 created_new_doc primary_axis_source_out

/-- The body of `ingest_request` after validation has passed (source lines
89-135 plus the create tail): audit `REQUEST.RECEIVED` /
`FINGERPRINT.COMPUTED` / `DEDUP.CHECKED`, return the dedupe short-circuit when
an identical upload exists and `force_new_version` is not set, otherwise run
the create path. -/
def IngestionService.preState (s0 : St) (req : Req) (correlation_id : String) : St :=
  let s1 := (AuditService.write s0 "system" "epic1" "EPIC1.REQUEST.RECEIVED" req.actor
    correlation_id
    (.obj (.cons "meta" (metaJson req.meta)
      (.cons "force_new_version" (.bool req.force_new_version) .nil))) true).1
  let sha := FingerprintService.sha256_bytes req.pdf_bytes
  let s2 := (AuditService.write s1 "system" "epic1" "EPIC1.FINGERPRINT.COMPUTED" req.actor
    correlation_id (.obj (.cons "raw_sha256" (.str sha) .nil)) true).1
  (AuditService.write s2 "system" "epic1" "EPIC1.DEDUP.CHECKED" req.actor
    correlation_id (.obj (.cons "raw_sha256" (.str sha) .nil)) true).1

def IngestionService.ingestMain (s0 : St) (req : Req) (correlation_id : String) :
    St × Except Err Resp :=
  let sha := FingerprintService.sha256_bytes req.pdf_bytes
  let s3 := IngestionService.preState s0 req correlation_id
  match IngestionService.dedupe_match_existing s3 sha req.meta with
  | some ex =>
    if req.force_new_version then IngestionService.ingestCreate s3 req sha correlation_id
    else
      let s4 := (AuditService.write s3 "version" ex.version_id
        "EPIC1.DEDUP.SHORTCIRCUIT_RETURNED" req.actor correlation_id
        (.obj (.cons "raw_sha256" (.str sha) .nil)) true).1
      let pas := (s4.documents.find? (fun d => d.document_id == ex.document_id)).map
        (·.primary_axis_source)
      (s4, .ok ⟨200, "DEDUP_RETURN_EXISTING", correlation_id, ex.document_id, ex.version_id,
        ex.file_id, ex.sha256, pas, none⟩)
  | none => IngestionService.ingestCreate s3 req sha correlation_id

/-- `IngestionService.ingest_request` (source lines 80-135 plus the create
tail): generate a correlation id, validate (required fields, payload size),
then run `ingestMain`. -/
def IngestionService.ingest_request (s : St) (req : Req) : St × Except Err Resp :=
  let (correlation_id, s0) := s.freshId
  match enforce_upload_rules (IngestionService.getRules s) req.meta with
  | .error e => (s0, .error e)
  | .ok _ =>
    let max_mb := (IngestionService.getRules s).max_pdf_mb.getD s.settings.MAX_PDF_MB
    if (req.pdf_bytes.length : Int) > max_mb * 1024 * 1024 then
      (s0, .error (.payloadTooLarge max_mb))
    else IngestionService.ingestMain s0 req correlation_id

/-! ## C3: audit hash chain -/

/-- The claim's description of `prev_event_hash`: the hash of the most recent
prior row for the same `(entity_type, entity_id)` having a non-null hash, or
`none` when no such row exists. -/
def PrevHashSpec (log : List AuditRow) (etype eid : String) (prev : Option String) : Prop :=
  (prev = none ∧ ∀ r ∈ log, entityMatches etype eid r = true → r.event_hash = none) ∨
  (∃ l₁ r l₂, log = l₁ ++ r :: l₂ ∧ entityMatches etype eid r = true ∧ r.event_hash = prev ∧
    prev ≠ none ∧ ∀ q ∈ l₂, entityMatches etype eid q = true → q.event_hash = none)

/-! ## C4: version status transitions -/

/-- One conditional status update: every row is either untouched or, when it
is the targeted version currently in `fromS`, moved to `toS` with all other
columns intact. -/
def StepOk (pre post : List VersionRow) (vid fromS toS : String) : Prop :=
  post.length = pre.length ∧
  ∀ (i : Nat) (h1 : i < pre.length) (h2 : i < post.length),
    post.get ⟨i, h2⟩ = pre.get ⟨i, h1⟩ ∨
    ((pre.get ⟨i, h1⟩).version_id = vid ∧ (pre.get ⟨i, h1⟩).status = fromS ∧
      post.get ⟨i, h2⟩ = { pre.get ⟨i, h1⟩ with status := toS })

/-- Rows already in a terminal status are never modified. -/
def TerminalPreserved (pre post : List VersionRow) : Prop :=
  ∀ (i : Nat) (h1 : i < pre.length) (h2 : i < post.length),
    ((pre.get ⟨i, h1⟩).status = "SUPERSEDED" ∨ (pre.get ⟨i, h1⟩).status = "FAILED") →
    post.get ⟨i, h2⟩ = pre.get ⟨i, h1⟩

/-- The file id `finishCreate` attaches: the existing file when evidence for
the sha exists and `force_new_version` is set, else the freshly created one. -/
def IngestionService.finishFileId (s2 : St) (sha : String) (force : Bool) : String :=
  match EvidenceStore.find_by_sha s2 sha with
  | some e => if force then e.file_id else freshUuid s2.ctr
  | none => freshUuid s2.ctr

/-! ## Concrete states and requests for the end-to-end claims -/

/-- An empty deployment: no reference rules, all tables empty. -/
def stEmpty : St :=
  ⟨⟨50, false, "model-x", "v1"⟩, none, [], [], [], [], [], [], 0, 0⟩

/-- A deployment whose `regulation_rules` row requires `title` and caps
uploads at 50 MiB. -/
def stRules : St :=
  { stEmpty with ref_rules := some ⟨["title"], some 50⟩ }

/-- Well-formed upload metadata (explicit jurisdiction, no provided axis). -/
def metaCbam : Meta :=
  ⟨"EU CBAM", "EU", "carbon", "regulation", none, "t1", 2026, none, none, none⟩

/-- The same metadata with a blank `title`, so required-field validation
fails when `title` is required. -/
def metaNoTitle : Meta :=
  ⟨"", "EU", "carbon", "regulation", none, "t1", 2026, none, none, none⟩

/-- A request with the given bytes, metadata and `force_new_version` flag,
uploaded by actor `"op"`. -/
def reqOf (b : List Nat) (m : Meta) (force : Bool) : Req := ⟨b, m, "op", force⟩

def metaTheme : Meta := { metaCbam with primary_axis := some "theme" }

/-- The state after one successful upload of byte `97` with `metaCbam` into
the `stRules` deployment: one document (axis `jurisdiction`, derived), one
version, one evidence row. -/
def stOne : St := (IngestionService.ingest_request stRules (reqOf [97] metaCbam false)).1

/-- The document row the first upload creates. -/
def docCbam : DocumentRow :=
  ⟨"uuid-4", "EU CBAM", "EU", "carbon", "regulation", "jurisdiction", "DETERMINISTIC_RULE"⟩

/-- The state after one successful upload of byte `97` with a CALLER-SUPPLIED
axis `"theme"` into the `stRules` deployment: its document stores
`primary_axis = "theme"` with source `UPLOAD`. -/
def stOneUp : St := (IngestionService.ingest_request stRules (reqOf [97] metaTheme false)).1

/-- The document row that upload creates. -/
def docUp : DocumentRow :=
  ⟨"uuid-4", "EU CBAM", "EU", "carbon", "regulation", "theme", "UPLOAD"⟩

/-- The evidence row the first upload (`stOne`) stores for byte `97`. -/
def evRow97 : EvidenceRow :=
  ⟨"uuid-6", "uuid-5", "ca978112ca1bbdcafac231b39a23dc4da786eff8147c4e72b9807785afee48bb",
    "application/pdf", 1, "s3://epic1/evidence/uuid-4/uuid-5/uuid-6.pdf"⟩

/-- The response of the forced re-upload of byte `97` against `stOne`. -/
def respForced : Resp :=
  ⟨201, "CREATED_NEW_VERSION_REUSED_FILE", "cid", "uuid-4", "uuid-8", "uuid-6",
    "ca978112ca1bbdcafac231b39a23dc4da786eff8147c4e72b9807785afee48bb",
    some "DETERMINISTIC_RULE", none⟩

def metaOther : Meta := { metaCbam with title := "Other Title" }

/-- The state after uploading byte `97` under `metaCbam` and then the SAME
byte under `metaOther` (different title), both with `force_new_version=false`:
two documents, two versions, two evidence rows both holding the same sha. -/
def stTwo : St := (IngestionService.ingest_request
  (IngestionService.ingest_request stRules (reqOf [97] metaCbam false)).1
  (reqOf [97] metaOther false)).1

/-- The response of the first upload of byte `97` with `metaCbam` into
`stRules`. -/
def respFirst : Resp :=
  ⟨201, "CREATED_NEW_DOCUMENT_AND_VERSION", "uuid-0", "uuid-4", "uuid-5", "uuid-6",
    "ca978112ca1bbdcafac231b39a23dc4da786eff8147c4e72b9807785afee48bb",
    some "DETERMINISTIC_RULE", none⟩

/-! # Theorems -/

set_option maxRecDepth 4000 in
theorem sha256_empty_vector :
    sha256HexOfString "" =
      "e3b0c44298fc1c149afbf4c8996fb92427ae41e4649b934ca495991b7852b855" := by decide

set_option maxRecDepth 4000 in
theorem sha256_abc_vector :
    sha256HexOfString "abc" =
      "ba7816bf8f01cfea414140de5dae2223b00361a396177a9cb410ff61f20015ad" := by decide

/-! ## C2 theorems -/

/-- C2 counterexample input: with `title="batter"`, `regulation_family="ya"`,
the plain concatenation `"batterya"` contains the product keyword `"battery"`,
so the claim's rule yields `product_scope`; the code's space-joined haystack
`"batter ya "` does not, and the code yields `theme`. -/
theorem c2_concat_counterexample :
    derive_primary_axis_deterministic none (some "batter") (some "ya") (some "") =
      ("theme", "DETERMINISTIC_RULE") ∧
    claimDerivePrimaryAxis none (some "batter") (some "ya") (some "") =
      ("product_scope", "DETERMINISTIC_RULE") := by decide

/-- C2 (amended): `derive_primary_axis_deterministic` is a pure function that
follows the claimed precedence order — jurisdiction, then product keywords,
then theme keywords, then the `theme` fallback — with the keyword haystack
being the *space-joined* lowercased `(title, regulation_family,
instrument_type)`, and its second component is always `"DETERMINISTIC_RULE"`. -/
theorem c2_derive_primary_axis_amended
    (jurisdiction title regulation_family instrument_type : Option String) :
    derive_primary_axis_deterministic jurisdiction title regulation_family instrument_type =
      amendedDerivePrimaryAxis jurisdiction title regulation_family instrument_type ∧
    (derive_primary_axis_deterministic jurisdiction title regulation_family
        instrument_type).2 = "DETERMINISTIC_RULE" := by
  constructor
  · rfl
  · unfold derive_primary_axis_deterministic
    split
    · rfl
    · dsimp only
      split
      · rfl
      · split <;> rfl

/-! ## Chunker lemmas (C8, C10) -/

theorem findDblNlAux_ge : ∀ (l : List Char) (pos : Nat), pos ≤ findDblNlAux l pos := by
  intro l
  induction l with
  | nil => intro pos; simp [findDblNlAux]
  | cons c tl ih =>
    intro pos
    match tl, ih with
    | [], _ => simp [findDblNlAux]
    | c2 :: rest, ih =>
      unfold findDblNlAux
      split
      · exact le_refl _
      · exact le_trans (by omega) (ih (pos + 1))

theorem findDblNlAux_le : ∀ (l : List Char) (pos : Nat), findDblNlAux l pos ≤ pos + l.length := by
  intro l
  induction l with
  | nil => intro pos; simp [findDblNlAux]
  | cons c tl ih =>
    intro pos
    match tl, ih with
    | [], _ => simp [findDblNlAux]
    | c2 :: rest, ih =>
      unfold findDblNlAux
      split
      · omega
      · have := ih (pos + 1)
        simp only [List.length_cons] at this ⊢
        omega

theorem findDblNl_ge (cs : List Char) (i : Nat) : i ≤ findDblNl cs i :=
  findDblNlAux_ge _ i

theorem findDblNl_le (cs : List Char) (i : Nat) (h : i ≤ cs.length) :
    findDblNl cs i ≤ cs.length := by
  have := findDblNlAux_le (cs.drop i) i
  simp only [List.length_drop] at this
  unfold findDblNl
  omega

theorem innerPairs_mem (maxLen overlap paraEnd : Nat) (hm : 1 ≤ maxLen) :
    ∀ (fuel start : Nat) (p : Nat × Nat), p ∈ innerPairs fuel maxLen overlap paraEnd start →
      p.1 < p.2 ∧ p.2 ≤ paraEnd := by
  intro fuel
  induction fuel with
  | zero => intro start p hp; simp [innerPairs] at hp
  | succ n ih =>
    intro start p hp
    unfold innerPairs at hp
    by_cases hsp : start < paraEnd
    · simp only [if_pos hsp] at hp
      rcases List.mem_cons.mp hp with h | h
    
      · subst h; constructor <;> simp <;> omega
      · exact ih _ p h
    · simp [hsp] at hp

theorem outerPairs_mem (cs : List Char) (maxLen overlap : Nat) (hm : 1 ≤ maxLen) :
    ∀ (fuel i : Nat) (p : Nat × Nat), p ∈ outerPairs fuel cs maxLen overlap i →
      p.1 < p.2 ∧ p.2 ≤ cs.length := by
  intro fuel
  induction fuel with
  | zero => intro i p hp; simp [outerPairs] at hp
  | succ n ih =>
    intro i p hp
    unfold outerPairs at hp
    by_cases hi : i < cs.length
    · simp only [if_pos hi] at hp
      rcases List.mem_append.mp hp with h | h
      · have hwf := innerPairs_mem maxLen overlap _ hm _ _ p h
        have hle := findDblNl_le cs i (le_of_lt hi)
        exact ⟨hwf.1, le_trans hwf.2 hle⟩
      · exact ih _ p h
    · simp [hi] at hp

theorem innerPairs_length (maxLen overlap paraEnd : Nat) :
    ∀ (fuel start : Nat), (innerPairs fuel maxLen overlap paraEnd start).length ≤ fuel := by
  intro fuel
  induction fuel with
  | zero => intro start; simp [innerPairs]
  | succ n ih =>
    intro start
    unfold innerPairs
    by_cases hsp : start < paraEnd
    · simp only [if_pos hsp, List.length_cons]
      exact Nat.succ_le_succ (ih _)
    · simp [hsp]

theorem outerPairs_length (cs : List Char) (maxLen overlap : Nat) :
    ∀ (fuel i : Nat), (outerPairs fuel cs maxLen overlap i).length ≤ cs.length - i := by
  intro fuel
  induction fuel with
  | zero => intro i; simp [outerPairs]
  | succ n ih =>
    intro i
    unfold outerPairs
    by_cases hi : i < cs.length
    · simp only [if_pos hi, List.length_append]
      have h1 := innerPairs_length maxLen overlap (findDblNl cs i) (findDblNl cs i - i) i
      have h2 := ih (findDblNl cs i + 2)
      have h3 := findDblNl_ge cs i
      have h4 := findDblNl_le cs i (le_of_lt hi)
      omega
    · simp [hi]

theorem find?_pageHit_cons_pos (p : PageEntry) (pm : List PageEntry) (pos : Nat)
    (h : pageHit pos p = true) :
    (p :: pm).find? (pageHit pos) = some p := by
  simp only [List.find?, h]

theorem find?_pageHit_cons_neg (p : PageEntry) (pm : List PageEntry) (pos : Nat)
    (h : pageHit pos p = false) :
    (p :: pm).find? (pageHit pos) = pm.find? (pageHit pos) := by
  simp only [List.find?, h]

theorem pageForOffset_cons_hit (p : PageEntry) (pm : List PageEntry) (pos : Nat)
    (h : pageHit pos p = true) :
    pageForOffset (p :: pm) pos = p.page := by
  unfold pageForOffset
  rw [find?_pageHit_cons_pos p pm pos h]

theorem pageForOffset_found :
    ∀ (pm : List PageEntry) (lo n pos : Nat), pagesCoverB lo n pm = true → lo ≤ pos → pos < n →
      ∃ q, pm.find? (pageHit pos) = some q ∧ q ∈ pm ∧ pageForOffset pm pos = q.page := by
  intro pm
  induction pm with
  | nil =>
    intro lo n pos hcov h1 h2
    simp [pagesCoverB] at hcov
    omega
  | cons p rest ih =>
    intro lo n pos hcov h1 h2
    simp only [pagesCoverB, Bool.and_eq_true, beq_iff_eq, decide_eq_true_eq] at hcov
    obtain ⟨⟨⟨hs, hse⟩, hen⟩, hrest⟩ := hcov
    by_cases hpos : pos ≤ p.end_char
    · have hcond : pageHit pos p = true := by simp [pageHit]; omega
      refine ⟨p, find?_pageHit_cons_pos p rest pos hcond, List.mem_cons_self _ _, ?_⟩
      exact pageForOffset_cons_hit p rest pos hcond
    · have hcond : pageHit pos p = false := by simp [pageHit]; omega
      obtain ⟨q, hq1, hq2, _⟩ := ih (p.end_char + 1) n pos hrest (by omega) h2
      refine ⟨q, ?_, List.mem_cons_of_mem _ hq2, ?_⟩
      · rw [find?_pageHit_cons_neg p rest pos hcond]; exact hq1
      · unfold pageForOffset
        rw [find?_pageHit_cons_neg p rest pos hcond, hq1]

theorem pageForOffset_mono :
    ∀ (pm : List PageEntry) (lo n pos1 pos2 : Nat), pagesCoverB lo n pm = true →
      List.Pairwise (fun p q : PageEntry => p.page ≤ q.page) pm →
      lo ≤ pos1 → pos1 ≤ pos2 → pos2 < n →
      pageForOffset pm pos1 ≤ pageForOffset pm pos2 := by
  intro pm
  induction pm with
  | nil =>
    intro lo n pos1 pos2 hcov _ h1 h2 h3
    simp [pagesCoverB] at hcov
    omega
  | cons p rest ih =>
    intro lo n pos1 pos2 hcov hpw h1 h2 h3
    simp only [pagesCoverB, Bool.and_eq_true, beq_iff_eq, decide_eq_true_eq] at hcov
    obtain ⟨⟨⟨hs, hse⟩, hen⟩, hrest⟩ := hcov
    rcases List.pairwise_cons.mp hpw with ⟨hhead, htail⟩
    by_cases hp1 : pos1 ≤ p.end_char
    · have hcond1 : pageHit pos1 p = true := by simp [pageHit]; omega
      have e1 := pageForOffset_cons_hit p rest pos1 hcond1
      by_cases hp2 : pos2 ≤ p.end_char
      · have hcond2 : pageHit pos2 p = true := by simp [pageHit]; omega
        have e2 := pageForOffset_cons_hit p rest pos2 hcond2
        rw [e1, e2]
      · have hcond2 : pageHit pos2 p = false := by simp [pageHit]; omega
        obtain ⟨q, hq1, hq2, _⟩ := pageForOffset_found rest (p.end_char + 1) n pos2 hrest (by omega) h3
        have e2 : pageForOffset (p :: rest) pos2 = q.page := by
          unfold pageForOffset
          rw [find?_pageHit_cons_neg p rest pos2 hcond2, hq1]
        rw [e1, e2]
        exact hhead q hq2
    · have hcond1 : pageHit pos1 p = false := by simp [pageHit]; omega
      have hcond2 : pageHit pos2 p = false := by simp [pageHit]; omega
      obtain ⟨q1, hq11, _, hq13⟩ :=
        pageForOffset_found rest (p.end_char + 1) n pos1 hrest (by omega) (by omega)
      obtain ⟨q2, hq21, _, hq23⟩ :=
        pageForOffset_found rest (p.end_char + 1) n pos2 hrest (by omega) h3
      have e1 : pageForOffset (p :: rest) pos1 = q1.page := by
        unfold pageForOffset
        rw [find?_pageHit_cons_neg p rest pos1 hcond1, hq11]
      have e2 : pageForOffset (p :: rest) pos2 = q2.page := by
        unfold pageForOffset
        rw [find?_pageHit_cons_neg p rest pos2 hcond2, hq21]
      rw [e1, e2, ← hq13, ← hq23]
      exact ih (p.end_char + 1) n pos1 pos2 hrest htail (by omega) h2 h3

/-! ## C8 / C10 theorems -/

set_option maxRecDepth 4000 in
/-- Embedding sanity check: offsets and page spans produced for a small text,
matching a hand trace of the Python loop (`max_chars=3`, `overlap_chars=1`). -/
theorem chunk_example_offsets :
    ((SimpleDeterministicChunker.chunk ⟨1500⟩ "ab\n\ncd" [⟨1, 0, 2⟩, ⟨2, 3, 5⟩]
        (some 3) 1).1).map (fun c => (c.start_char, c.end_char, c.page_start, c.page_end)) =
      [(0, 2, 1, 1), (1, 2, 1, 1), (4, 6, 2, 2), (5, 6, 2, 2)] := by decide

/-- C8: for a page map whose intervals partition `[0, len)` with pages listed
in order, and any policy with `max_chars ≥ 1`, every emitted chunk has a
non-whitespace-only text slice, `start_char < end_char` and
`page_start ≤ page_end`. -/
theorem c8_chunk_invariants (self : SimpleDeterministicChunker) (stable_text : String)
    (page_map : List PageEntry) (max_chars : Option Int) (overlap_chars : Int)
    (hm : 1 ≤ chunkMaxLen self.max_chars max_chars)
    (hcov : pagesCoverB 0 stable_text.length page_map = true)
    (hord : List.Pairwise (fun p q : PageEntry => p.page ≤ q.page) page_map) :
    ∀ c ∈ (self.chunk stable_text page_map max_chars overlap_chars).1,
      c.start_char < c.end_char ∧
      allSpace ((stable_text.data.drop c.start_char).take (c.end_char - c.start_char)) = false ∧
      c.page_start ≤ c.page_end := by
  intro c hc
  simp only [SimpleDeterministicChunker.chunk] at hc
  rcases List.mem_filterMap.mp hc with ⟨p, hpmem, hpe⟩
  have hm' : 1 ≤ (chunkMaxLen self.max_chars max_chars).toNat := by omega
  have hwf := outerPairs_mem stable_text.data (chunkMaxLen self.max_chars max_chars).toNat
    (chunkOverlap (chunkMaxLen self.max_chars max_chars) overlap_chars).toNat hm'
    stable_text.data.length 0 p hpmem
  have hlen : stable_text.length = stable_text.data.length := rfl
  unfold emitChunk at hpe
  by_cases hws : allSpace ((stable_text.data.drop p.1).take (p.2 - p.1)) = true
  · simp only [hws, if_true] at hpe
    exact absurd hpe (by simp)
  · have hws' : allSpace ((stable_text.data.drop p.1).take (p.2 - p.1)) = false := by
      revert hws; cases allSpace ((stable_text.data.drop p.1).take (p.2 - p.1)) <;> simp
    simp only [hws', if_false, Bool.false_eq_true, Option.some_inj] at hpe
    subst hpe
    refine ⟨hwf.1, hws', ?_⟩
    have hmax : max p.1 (p.2 - 1) < stable_text.length := by
      rw [hlen]; omega
    exact pageForOffset_mono page_map 0 stable_text.length p.1 (max p.1 (p.2 - 1))
      (by rw [hlen] at hcov; exact hcov) hord (Nat.zero_le _) (le_max_left _ _)
      (by rw [hlen] at hmax; exact hmax)

theorem c8_chunk_invariants_witness :
    (1 ≤ chunkMaxLen (SimpleDeterministicChunker.mk 1500).max_chars (some 3)) ∧
    (pagesCoverB 0 ("ab\n\ncd" : String).length [⟨1, 0, 2⟩, ⟨2, 3, 5⟩] = true) ∧
    ∀ c ∈ (SimpleDeterministicChunker.chunk ⟨1500⟩ "ab\n\ncd" [⟨1, 0, 2⟩, ⟨2, 3, 5⟩]
        (some 3) 1).1,
      c.start_char < c.end_char ∧
      allSpace ((("ab\n\ncd" : String).data.drop c.start_char).take
        (c.end_char - c.start_char)) = false ∧
      c.page_start ≤ c.page_end :=
  ⟨by decide, by decide,
    c8_chunk_invariants ⟨1500⟩ "ab\n\ncd" [⟨1, 0, 2⟩, ⟨2, 3, 5⟩] (some 3) 1
      (by decide) (by decide) (by decide)⟩

/-- C10: the chunker is a total function whose output size is bounded by the
input length — at most `len(stable_text)` chunks are ever emitted, for any
page map, any `max_chars ≥ 1` and any `overlap_chars`. -/
theorem c10_chunk_terminates_bounded (self : SimpleDeterministicChunker)
    (stable_text : String) (page_map : List PageEntry) (max_chars : Option Int)
    (overlap_chars : Int) (hm : 1 ≤ chunkMaxLen self.max_chars max_chars) :
    ((self.chunk stable_text page_map max_chars overlap_chars).1).length ≤
      stable_text.length := by
  simp only [SimpleDeterministicChunker.chunk]
  have h1 := List.length_filterMap_le (emitChunk stable_text.data page_map)
    (outerPairs stable_text.data.length stable_text.data
      (chunkMaxLen self.max_chars max_chars).toNat
      (chunkOverlap (chunkMaxLen self.max_chars max_chars) overlap_chars).toNat 0)
  have h2 := outerPairs_length stable_text.data
    (chunkMaxLen self.max_chars max_chars).toNat
    (chunkOverlap (chunkMaxLen self.max_chars max_chars) overlap_chars).toNat
    stable_text.data.length 0
  have hlen : stable_text.length = stable_text.data.length := rfl
  omega

theorem c10_chunk_terminates_bounded_witness :
    (1 ≤ chunkMaxLen (SimpleDeterministicChunker.mk 1500).max_chars (some 3)) ∧
    ((SimpleDeterministicChunker.chunk ⟨1500⟩ "ab\n\ncd" [⟨1, 0, 2⟩, ⟨2, 3, 5⟩]
        (some 3) 1).1).length ≤ ("ab\n\ncd" : String).length :=
  ⟨by decide,
    c10_chunk_terminates_bounded ⟨1500⟩ "ab\n\ncd" [⟨1, 0, 2⟩, ⟨2, 3, 5⟩] (some 3) 1 (by decide)⟩

/-! ## Frame lemmas for the state operations -/

@[simp] theorem write_fst_documents (s : St) (a b c d e : String) (j : Json) (en : Bool) :
    ((AuditService.write s a b c d e j en).1).documents = s.documents := rfl

@[simp] theorem write_fst_versions (s : St) (a b c d e : String) (j : Json) (en : Bool) :
    ((AuditService.write s a b c d e j en).1).versions = s.versions := rfl

@[simp] theorem write_fst_evidence (s : St) (a b c d e : String) (j : Json) (en : Bool) :
    ((AuditService.write s a b c d e j en).1).evidence_files = s.evidence_files := rfl

@[simp] theorem write_fst_suggestions (s : St) (a b c d e : String) (j : Json) (en : Bool) :
    ((AuditService.write s a b c d e j en).1).suggestions = s.suggestions := rfl

@[simp] theorem write_fst_blobs (s : St) (a b c d e : String) (j : Json) (en : Bool) :
    ((AuditService.write s a b c d e j en).1).blobs = s.blobs := rfl

@[simp] theorem write_fst_settings (s : St) (a b c d e : String) (j : Json) (en : Bool) :
    ((AuditService.write s a b c d e j en).1).settings = s.settings := rfl

@[simp] theorem write_fst_ref_rules (s : St) (a b c d e : String) (j : Json) (en : Bool) :
    ((AuditService.write s a b c d e j en).1).ref_rules = s.ref_rules := rfl

@[simp] theorem create_document_fst_versions (s : St) (a b c d e f : String) :
    ((RegistryService.create_document s a b c d e f).1).versions = s.versions := rfl

@[simp] theorem create_document_fst_evidence (s : St) (a b c d e f : String) :
    ((RegistryService.create_document s a b c d e f).1).evidence_files = s.evidence_files := rfl

@[simp] theorem create_document_fst_suggestions (s : St) (a b c d e f : String) :
    ((RegistryService.create_document s a b c d e f).1).suggestions = s.suggestions := rfl

@[simp] theorem create_document_fst_audit (s : St) (a b c d e f : String) :
    ((RegistryService.create_document s a b c d e f).1).audit_log = s.audit_log := rfl

@[simp] theorem create_document_fst_settings (s : St) (a b c d e f : String) :
    ((RegistryService.create_document s a b c d e f).1).settings = s.settings := rfl

@[simp] theorem create_document_fst_clock (s : St) (a b c d e f : String) :
    ((RegistryService.create_document s a b c d e f).1).clock = s.clock := rfl

theorem create_document_fst_documents (s : St) (a b c d e f : String) :
    ((RegistryService.create_document s a b c d e f).1).documents =
      s.documents ++ [⟨freshUuid s.ctr, a, b, c, d, e, f⟩] := rfl

@[simp] theorem set_version_file_id_documents (s : St) (v f : String) :
    (RegistryService.set_version_file_id s v f).documents = s.documents := rfl

@[simp] theorem set_version_file_id_evidence (s : St) (v f : String) :
    (RegistryService.set_version_file_id s v f).evidence_files = s.evidence_files := rfl

@[simp] theorem set_version_file_id_suggestions (s : St) (v f : String) :
    (RegistryService.set_version_file_id s v f).suggestions = s.suggestions := rfl

@[simp] theorem set_version_file_id_audit (s : St) (v f : String) :
    (RegistryService.set_version_file_id s v f).audit_log = s.audit_log := rfl

@[simp] theorem set_version_file_id_settings (s : St) (v f : String) :
    (RegistryService.set_version_file_id s v f).settings = s.settings := rfl

@[simp] theorem mark_parent_superseded_documents (s : St) (v : String) :
    (RegistryService.mark_parent_superseded s v).documents = s.documents := rfl

@[simp] theorem mark_parent_superseded_evidence (s : St) (v : String) :
    (RegistryService.mark_parent_superseded s v).evidence_files = s.evidence_files := rfl

@[simp] theorem mark_parent_superseded_audit (s : St) (v : String) :
    (RegistryService.mark_parent_superseded s v).audit_log = s.audit_log := rfl

@[simp] theorem mark_parent_superseded_suggestions (s : St) (v : String) :
    (RegistryService.mark_parent_superseded s v).suggestions = s.suggestions := rfl

@[simp] theorem mark_parent_superseded_settings (s : St) (v : String) :
    (RegistryService.mark_parent_superseded s v).settings = s.settings := rfl

@[simp] theorem mark_parent_superseded_clock (s : St) (v : String) :
    (RegistryService.mark_parent_superseded s v).clock = s.clock := rfl

@[simp] theorem create_evidence_fst_documents (s : St) (sh : String) (b : List Nat)
    (d v : String) :
    ((EvidenceStore.create_evidence s sh b d v).1).documents = s.documents := rfl

@[simp] theorem create_evidence_fst_versions (s : St) (sh : String) (b : List Nat)
    (d v : String) :
    ((EvidenceStore.create_evidence s sh b d v).1).versions = s.versions := rfl

@[simp] theorem create_evidence_fst_suggestions (s : St) (sh : String) (b : List Nat)
    (d v : String) :
    ((EvidenceStore.create_evidence s sh b d v).1).suggestions = s.suggestions := rfl

@[simp] theorem create_evidence_fst_audit (s : St) (sh : String) (b : List Nat)
    (d v : String) :
    ((EvidenceStore.create_evidence s sh b d v).1).audit_log = s.audit_log := rfl

@[simp] theorem create_evidence_fst_settings (s : St) (sh : String) (b : List Nat)
    (d v : String) :
    ((EvidenceStore.create_evidence s sh b d v).1).settings = s.settings := rfl

@[simp] theorem create_evidence_fst_clock (s : St) (sh : String) (b : List Nat)
    (d v : String) :
    ((EvidenceStore.create_evidence s sh b d v).1).clock = s.clock := rfl

theorem create_evidence_fst_evidence (s : St) (sh : String) (b : List Nat) (d v : String) :
    ((EvidenceStore.create_evidence s sh b d v).1).evidence_files =
      s.evidence_files ++ [⟨freshUuid s.ctr, v, sh, "application/pdf", b.length,
        "s3://epic1/" ++ ("evidence/" ++ d ++ "/" ++ v ++ "/" ++ freshUuid s.ctr ++ ".pdf")⟩] :=
  rfl

theorem upsert_suggestion_frame (s : St) (v a m mv c : String) (j : Json) :
    (RegistryService.upsert_primary_axis_suggestion s v a m mv c j).documents = s.documents ∧
    (RegistryService.upsert_primary_axis_suggestion s v a m mv c j).versions = s.versions ∧
    (RegistryService.upsert_primary_axis_suggestion s v a m mv c j).evidence_files =
      s.evidence_files ∧
    (RegistryService.upsert_primary_axis_suggestion s v a m mv c j).audit_log = s.audit_log ∧
    (RegistryService.upsert_primary_axis_suggestion s v a m mv c j).blobs = s.blobs := by
  unfold RegistryService.upsert_primary_axis_suggestion
  dsimp only [St.freshId]
  refine ⟨?_, ?_, ?_, ?_, ?_⟩ <;> (split <;> rfl)

/-- Characterization of a successful `create_version`. -/
theorem create_version_ok (s : St) (did tid : String) (ey : Int) (ub sha : String)
    (vl ed pvid : Option String) (fid : Option String) (st : String)
    (out : St × String)
    (h : RegistryService.create_version s did tid ey ub sha vl ed pvid fid st = .ok out) :
    out.1 = { s with
      versions := s.versions ++
        [⟨freshUuid s.ctr, did, vl, ed, st, pvid, tid, ey, ub, sha, fid, none, none⟩]
      ctr := s.ctr + 1 } ∧ out.2 = freshUuid s.ctr := by
  unfold RegistryService.create_version at h
  split at h
  · exact absurd h (by simp)
  · split at h
    · split at h
      · exact absurd h (by simp)
      · split at h
        · exact absurd h (by simp)
        · rw [Except.ok.injEq] at h
          subst h
          exact ⟨rfl, rfl⟩
    · rw [Except.ok.injEq] at h
      subst h
      exact ⟨rfl, rfl⟩

theorem last_hash_for_entity_spec (log : List AuditRow) (etype eid : String) :
    PrevHashSpec log etype eid (AuditService.last_hash_for_entity log etype eid) := by
  induction log using List.reverseRecOn with
  | nil =>
    left
    constructor
    · rfl
    · intro r hr; simp at hr
  | append_singleton l r ih =>
    unfold AuditService.last_hash_for_entity
    have hrev : (l ++ [r]).reverse = r :: l.reverse := by simp
    rw [hrev]
    by_cases hpred : (entityMatches etype eid r && r.event_hash.isSome) = true
    · simp only [List.find?]
      rw [hpred]
      have hpred2 := hpred
      simp only [Bool.and_eq_true] at hpred2
      obtain ⟨hm, hsome⟩ := hpred2
      show PrevHashSpec (l ++ [r]) etype eid r.event_hash
      right
      refine ⟨l, r, [], by simp, hm, rfl, ?_, by simp⟩
      intro hn
      rw [hn] at hsome
      simp at hsome
    · have hpredF : (entityMatches etype eid r && r.event_hash.isSome) = false := by
        revert hpred; cases (entityMatches etype eid r && r.event_hash.isSome) <;> simp
      simp only [List.find?]
      rw [hpredF]
      show PrevHashSpec (l ++ [r]) etype eid (AuditService.last_hash_for_entity l etype eid)
      have hrnone : entityMatches etype eid r = true → r.event_hash = none := by
        intro hm
        rw [hm] at hpredF
        simp at hpredF
        exact Option.not_isSome_iff_eq_none.mp (by simp [hpredF])
      rcases ih with ⟨hnone, hall⟩ | ⟨l₁, q, l₂, heq, hm, hh, hne, hlast⟩
      · left
        refine ⟨hnone, ?_⟩
        intro x hx
        rcases List.mem_append.mp hx with hx | hx
        · exact hall x hx
        · rcases List.mem_singleton.mp hx with rfl
          exact hrnone
      · right
        refine ⟨l₁, q, l₂ ++ [r], by rw [heq]; simp, hm, hh, hne, ?_⟩
        intro x hx
        rcases List.mem_append.mp hx with hx | hx
        · exact hlast x hx
        · rcases List.mem_singleton.mp hx with rfl
          exact hrnone

/-- C3: every hash-chained audit write appends one row whose `event_hash` is
the SHA-256 hex digest of the canonical JSON (UTF-8, sorted keys, compact
separators, non-ASCII preserved) of the payload `{event_id, entity_type,
entity_id, action, actor, correlation_id, details, prev_event_hash}`, where
`prev_event_hash` is the hash of the most recent prior row for the same
`(entity_type, entity_id)` with a non-null hash (or null); chains are keyed
per entity only. -/
theorem c3_audit_hash_chain (s : St) (etype eid action actor correlation_id : String)
    (details : Json) :
    ∃ row,
      ((AuditService.write s etype eid action actor correlation_id details true).1).audit_log =
        s.audit_log ++ [row] ∧
      row.entity_type = etype ∧ row.entity_id = eid ∧ row.action = action ∧
      row.actor = actor ∧ row.correlation_id = correlation_id ∧ row.details = details ∧
      PrevHashSpec s.audit_log etype eid row.prev_event_hash ∧
      row.event_hash = some (sha256HexOfString (stableJson
        (auditPayload row.event_id etype eid action actor correlation_id details
          row.prev_event_hash))) :=
  ⟨_, rfl, rfl, rfl, rfl, rfl, rfl, rfl, last_hash_for_entity_spec s.audit_log etype eid, rfl⟩

theorem stepOk_of_map (vs : List VersionRow) (vid fromS toS : String)
    (f : VersionRow → VersionRow)
    (hf : ∀ v, f v = v ∨ (v.version_id = vid ∧ v.status = fromS ∧
      f v = { v with status := toS })) :
    StepOk vs (vs.map f) vid fromS toS := by
  constructor
  · simp
  · intro i h1 h2
    have hget : (vs.map f).get ⟨i, h2⟩ = f (vs.get ⟨i, h1⟩) := by
      simp
    rw [hget]
    exact hf (vs.get ⟨i, h1⟩)

theorem terminal_of_stepOk (pre post : List VersionRow) (vid fromS toS : String)
    (h : StepOk pre post vid fromS toS)
    (h1 : fromS ≠ "SUPERSEDED") (h2 : fromS ≠ "FAILED") :
    TerminalPreserved pre post := by
  intro i hi1 hi2 hterm
  rcases h.2 i hi1 hi2 with he | ⟨_, hst, _⟩
  · exact he
  · rcases hterm with ht | ht <;> rw [ht] at hst <;> [exact absurd hst.symm h1;
      exact absurd hst.symm h2]

/-- C4: the three conditional updates realize exactly the transitions
`ACTIVE→SUPERSEDED`, `PENDING→ACTIVE` and `PENDING→FAILED`; a version in any
other status is left unchanged (an attempted illegal transition is a no-op),
and `SUPERSEDED` / `FAILED` are terminal under all three operations. -/
theorem c4_version_status_transitions (s : St) (vid : String) :
    StepOk s.versions (RegistryService.mark_parent_superseded s vid).versions vid
      "ACTIVE" "SUPERSEDED" ∧
    StepOk s.versions (RegistryService.set_status_pending_to_active s vid).versions vid
      "PENDING" "ACTIVE" ∧
    StepOk s.versions (RegistryService.set_status_pending_to_failed s vid).versions vid
      "PENDING" "FAILED" ∧
    TerminalPreserved s.versions (RegistryService.mark_parent_superseded s vid).versions ∧
    TerminalPreserved s.versions (RegistryService.set_status_pending_to_active s vid).versions ∧
    TerminalPreserved s.versions (RegistryService.set_status_pending_to_failed s vid).versions := by
  have hmark : StepOk s.versions (RegistryService.mark_parent_superseded s vid).versions vid
      "ACTIVE" "SUPERSEDED" := by
    apply stepOk_of_map
    intro v
    by_cases h : (v.version_id == vid && v.status == "ACTIVE") = true
    · right
      have h2 := h
      simp only [Bool.and_eq_true, beq_iff_eq] at h2
      exact ⟨h2.1, h2.2, by simp [h]⟩
    · left; simp [h]
  have hact : StepOk s.versions (RegistryService.set_status_pending_to_active s vid).versions vid
      "PENDING" "ACTIVE" := by
    apply stepOk_of_map
    intro v
    by_cases h : (v.version_id == vid && v.status == "PENDING") = true
    · right
      have h2 := h
      simp only [Bool.and_eq_true, beq_iff_eq] at h2
      exact ⟨h2.1, h2.2, by simp [h]⟩
    · left; simp [h]
  have hfail : StepOk s.versions (RegistryService.set_status_pending_to_failed s vid).versions vid
      "PENDING" "FAILED" := by
    apply stepOk_of_map
    intro v
    by_cases h : (v.version_id == vid && v.status == "PENDING") = true
    · right
      have h2 := h
      simp only [Bool.and_eq_true, beq_iff_eq] at h2
      exact ⟨h2.1, h2.2, by simp [h]⟩
    · left; simp [h]
  exact ⟨hmark, hact, hfail,
    terminal_of_stepOk _ _ _ _ _ hmark (by decide) (by decide),
    terminal_of_stepOk _ _ _ _ _ hact (by decide) (by decide),
    terminal_of_stepOk _ _ _ _ _ hfail (by decide) (by decide)⟩

/-! ## Further frame and characterization lemmas -/

@[simp] theorem write_fst_audit_log (s : St) (a b c d e : String) (j : Json) (en : Bool) :
    ((AuditService.write s a b c d e j en).1).audit_log =
      s.audit_log ++ [auditRowOf s a b c d e j en] := rfl

@[simp] theorem write_fst_ctr (s : St) (a b c d e : String) (j : Json) (en : Bool) :
    ((AuditService.write s a b c d e j en).1).ctr = s.ctr + 1 := rfl

@[simp] theorem write_fst_clock (s : St) (a b c d e : String) (j : Json) (en : Bool) :
    ((AuditService.write s a b c d e j en).1).clock = s.clock := rfl

@[simp] theorem create_document_fst_ctr (s : St) (a b c d e f : String) :
    ((RegistryService.create_document s a b c d e f).1).ctr = s.ctr + 1 := rfl

@[simp] theorem create_evidence_fst_ctr (s : St) (sh : String) (b : List Nat) (d v : String) :
    ((EvidenceStore.create_evidence s sh b d v).1).ctr = s.ctr + 1 := rfl

@[simp] theorem set_version_file_id_ctr (s : St) (v f : String) :
    (RegistryService.set_version_file_id s v f).ctr = s.ctr := rfl

@[simp] theorem mark_parent_superseded_ctr (s : St) (v : String) :
    (RegistryService.mark_parent_superseded s v).ctr = s.ctr := rfl

theorem set_version_file_id_versions (s : St) (v f : String) :
    (RegistryService.set_version_file_id s v f).versions =
      s.versions.map (fun w =>
        if w.version_id == v then { w with file_id := some f, uploaded_at := some s.clock }
        else w) := rfl

theorem mark_parent_superseded_versions (s : St) (v : String) :
    (RegistryService.mark_parent_superseded s v).versions =
      s.versions.map (fun w =>
        if w.version_id == v && w.status == "ACTIVE" then { w with status := "SUPERSEDED" }
        else w) := rfl

@[simp] theorem upsert_fst_documents (s : St) (v a m mv c : String) (j : Json) :
    (RegistryService.upsert_primary_axis_suggestion s v a m mv c j).documents = s.documents :=
  (upsert_suggestion_frame s v a m mv c j).1

@[simp] theorem upsert_fst_versions (s : St) (v a m mv c : String) (j : Json) :
    (RegistryService.upsert_primary_axis_suggestion s v a m mv c j).versions = s.versions :=
  (upsert_suggestion_frame s v a m mv c j).2.1

@[simp] theorem upsert_fst_evidence (s : St) (v a m mv c : String) (j : Json) :
    (RegistryService.upsert_primary_axis_suggestion s v a m mv c j).evidence_files =
      s.evidence_files :=
  (upsert_suggestion_frame s v a m mv c j).2.2.1

@[simp] theorem upsert_fst_audit (s : St) (v a m mv c : String) (j : Json) :
    (RegistryService.upsert_primary_axis_suggestion s v a m mv c j).audit_log = s.audit_log :=
  (upsert_suggestion_frame s v a m mv c j).2.2.2.1

theorem find_by_sha_congr (s1 s2 : St) (x : String)
    (h : s1.evidence_files = s2.evidence_files) :
    EvidenceStore.find_by_sha s1 x = EvidenceStore.find_by_sha s2 x := by
  unfold EvidenceStore.find_by_sha
  rw [h]

@[simp] theorem create_evidence_snd_fid (s : St) (sh : String) (b : List Nat) (d v : String) :
    (EvidenceStore.create_evidence s sh b d v).2.1 = freshUuid s.ctr := rfl

theorem attachFile_snd (s2 : St) (req : Req) (sha did vid : String) :
    (IngestionService.attachFile s2 req sha did vid).2 =
      IngestionService.finishFileId s2 sha req.force_new_version := by
  unfold IngestionService.attachFile IngestionService.finishFileId
  cases hev : EvidenceStore.find_by_sha s2 sha <;>
    cases hforce : req.force_new_version <;> simp

theorem attachFile_fst_documents (s2 : St) (req : Req) (sha did vid : String) :
    ((IngestionService.attachFile s2 req sha did vid).1).documents = s2.documents := by
  unfold IngestionService.attachFile
  cases hev : EvidenceStore.find_by_sha s2 sha <;>
    cases hforce : req.force_new_version <;> simp

theorem attachFile_fst_versions (s2 : St) (req : Req) (sha did vid : String) :
    ((IngestionService.attachFile s2 req sha did vid).1).versions = s2.versions := by
  unfold IngestionService.attachFile
  cases hev : EvidenceStore.find_by_sha s2 sha <;>
    cases hforce : req.force_new_version <;> simp

theorem attachFile_fst_suggestions (s2 : St) (req : Req) (sha did vid : String) :
    ((IngestionService.attachFile s2 req sha did vid).1).suggestions = s2.suggestions := by
  unfold IngestionService.attachFile
  cases hev : EvidenceStore.find_by_sha s2 sha <;>
    cases hforce : req.force_new_version <;> simp

theorem attachFile_fst_audit (s2 : St) (req : Req) (sha did vid : String) :
    ((IngestionService.attachFile s2 req sha did vid).1).audit_log = s2.audit_log := by
  unfold IngestionService.attachFile
  cases hev : EvidenceStore.find_by_sha s2 sha <;>
    cases hforce : req.force_new_version <;> simp

theorem attachFile_fst_settings (s2 : St) (req : Req) (sha did vid : String) :
    ((IngestionService.attachFile s2 req sha did vid).1).settings = s2.settings := by
  unfold IngestionService.attachFile
  cases hev : EvidenceStore.find_by_sha s2 sha <;>
    cases hforce : req.force_new_version <;> simp

theorem attachFile_fst_clock (s2 : St) (req : Req) (sha did vid : String) :
    ((IngestionService.attachFile s2 req sha did vid).1).clock = s2.clock := by
  unfold IngestionService.attachFile
  cases hev : EvidenceStore.find_by_sha s2 sha <;>
    cases hforce : req.force_new_version <;> simp

theorem attachFile_fst_evidence_reuse (s2 : St) (req : Req) (sha did vid : String)
    (e : EvidenceRow) (hev : EvidenceStore.find_by_sha s2 sha = some e)
    (hforce : req.force_new_version = true) :
    ((IngestionService.attachFile s2 req sha did vid).1).evidence_files =
      s2.evidence_files := by
  unfold IngestionService.attachFile
  simp [hev, hforce]

theorem attachFile_fst_evidence_new (s2 : St) (req : Req) (sha did vid : String)
    (h : EvidenceStore.find_by_sha s2 sha = none ∨ req.force_new_version = false) :
    ((IngestionService.attachFile s2 req sha did vid).1).evidence_files =
      s2.evidence_files ++
        [⟨freshUuid s2.ctr, vid, sha, "application/pdf", req.pdf_bytes.length,
          "s3://epic1/" ++ ("evidence/" ++ did ++ "/" ++ vid ++ "/" ++ freshUuid s2.ctr ++
            ".pdf")⟩] := by
  unfold IngestionService.attachFile
  rcases h with h | h
  · simp [h, create_evidence_fst_evidence]
  · cases hev : EvidenceStore.find_by_sha s2 sha <;>
      simp [h, hev, create_evidence_fst_evidence]

theorem postVersionAudit_fst_documents (s4 : St) (req : Req) (cid vid : String) (m' : Meta)
    (did fid sha : String) :
    (IngestionService.postVersionAudit s4 req cid vid m' did fid sha).documents =
      s4.documents := by
  unfold IngestionService.postVersionAudit
  by_cases hpar : strTruthy m'.parent_version_id = true <;> simp [hpar]

theorem postVersionAudit_fst_evidence (s4 : St) (req : Req) (cid vid : String) (m' : Meta)
    (did fid sha : String) :
    (IngestionService.postVersionAudit s4 req cid vid m' did fid sha).evidence_files =
      s4.evidence_files := by
  unfold IngestionService.postVersionAudit
  by_cases hpar : strTruthy m'.parent_version_id = true <;> simp [hpar]

theorem postVersionAudit_fst_suggestions (s4 : St) (req : Req) (cid vid : String) (m' : Meta)
    (did fid sha : String) :
    (IngestionService.postVersionAudit s4 req cid vid m' did fid sha).suggestions =
      s4.suggestions := by
  unfold IngestionService.postVersionAudit
  by_cases hpar : strTruthy m'.parent_version_id = true <;> simp [hpar]

theorem postVersionAudit_fst_settings (s4 : St) (req : Req) (cid vid : String) (m' : Meta)
    (did fid sha : String) :
    (IngestionService.postVersionAudit s4 req cid vid m' did fid sha).settings =
      s4.settings := by
  unfold IngestionService.postVersionAudit
  by_cases hpar : strTruthy m'.parent_version_id = true <;> simp [hpar]

theorem postVersionAudit_fst_versions (s4 : St) (req : Req) (cid vid : String) (m' : Meta)
    (did fid sha : String) :
    ∃ g : VersionRow → VersionRow,
      (∀ w, g w = w ∨ (w.status = "ACTIVE" ∧ g w = { w with status := "SUPERSEDED" })) ∧
      (IngestionService.postVersionAudit s4 req cid vid m' did fid sha).versions =
        s4.versions.map g := by
  unfold IngestionService.postVersionAudit
  by_cases hpar : strTruthy m'.parent_version_id = true
  · refine ⟨fun w =>
      if w.version_id == (m'.parent_version_id.getD "") && w.status == "ACTIVE" then
        { w with status := "SUPERSEDED" } else w, ?_, ?_⟩
    · intro w
      by_cases hc : (w.version_id == (m'.parent_version_id.getD "") &&
          w.status == "ACTIVE") = true
      · right
        have h2 := hc
        simp only [Bool.and_eq_true, beq_iff_eq] at h2
        exact ⟨h2.2, by simp [hc]⟩
      · left; simp [hc]
    · simp [hpar, mark_parent_superseded_versions]
  · exact ⟨id, fun w => Or.inl rfl, by simp [hpar]⟩

theorem postVersionAudit_fst_audit (s4 : St) (req : Req) (cid vid : String) (m' : Meta)
    (did fid sha : String) :
    ∃ t, (IngestionService.postVersionAudit s4 req cid vid m' did fid sha).audit_log =
      s4.audit_log ++ t := by
  unfold IngestionService.postVersionAudit
  by_cases hpar : strTruthy m'.parent_version_id = true <;>
    (simp only [hpar, if_true, if_false, Bool.false_eq_true, write_fst_audit_log,
      mark_parent_superseded_audit, List.append_assoc]; exact ⟨_, rfl⟩)

theorem llmSuggest_fst_documents (s6 : St) (req : Req) (cid vid : String) (m' : Meta) :
    ((IngestionService.llmSuggest s6 req cid vid m').1).documents = s6.documents := by
  unfold IngestionService.llmSuggest
  by_cases hllm : s6.settings.ENABLE_LLM_PRIMARY_AXIS_SUGGESTION = true <;> simp [hllm]

theorem llmSuggest_fst_versions (s6 : St) (req : Req) (cid vid : String) (m' : Meta) :
    ((IngestionService.llmSuggest s6 req cid vid m').1).versions = s6.versions := by
  unfold IngestionService.llmSuggest
  by_cases hllm : s6.settings.ENABLE_LLM_PRIMARY_AXIS_SUGGESTION = true <;> simp [hllm]

theorem llmSuggest_fst_evidence (s6 : St) (req : Req) (cid vid : String) (m' : Meta) :
    ((IngestionService.llmSuggest s6 req cid vid m').1).evidence_files =
      s6.evidence_files := by
  unfold IngestionService.llmSuggest
  by_cases hllm : s6.settings.ENABLE_LLM_PRIMARY_AXIS_SUGGESTION = true <;> simp [hllm]

theorem llmSuggest_fst_audit (s6 : St) (req : Req) (cid vid : String) (m' : Meta) :
    ∃ t, ((IngestionService.llmSuggest s6 req cid vid m').1).audit_log =
      s6.audit_log ++ t := by
  unfold IngestionService.llmSuggest
  by_cases hllm : s6.settings.ENABLE_LLM_PRIMARY_AXIS_SUGGESTION = true
  · simp only [hllm, if_true, write_fst_audit_log, upsert_fst_audit, List.append_assoc]
    exact ⟨_, rfl⟩
  · exact ⟨[], by simp [hllm]⟩

theorem finishCreate_snd (s2 : St) (req : Req) (sha cid did vid : String) (m' : Meta)
    (cnd : Bool) (paso : String) :
    ∃ r, (IngestionService.finishCreate s2 req sha cid did vid m' cnd paso).2 = .ok r ∧
      r.http_status = 201 ∧
      r.ingestion_status =
        (if (EvidenceStore.find_by_sha s2 sha).isSome && req.force_new_version then
          "CREATED_NEW_VERSION_REUSED_FILE"
        else if cnd then "CREATED_NEW_DOCUMENT_AND_VERSION" else "CREATED_NEW_VERSION") ∧
      r.correlation_id = cid ∧ r.document_id = did ∧ r.version_id = vid ∧
      r.file_id = IngestionService.finishFileId s2 sha req.force_new_version ∧
      r.sha256 = sha ∧ r.primary_axis_source = some paso := by
  refine ⟨_, rfl, rfl, rfl, rfl, rfl, rfl, ?_, rfl, rfl⟩
  exact attachFile_snd s2 req sha did vid

theorem finishCreate_fst_documents (s2 : St) (req : Req) (sha cid did vid : String)
    (m' : Meta) (cnd : Bool) (paso : String) :
    ((IngestionService.finishCreate s2 req sha cid did vid m' cnd paso).1).documents =
      s2.documents := by
  unfold IngestionService.finishCreate
  dsimp only
  rw [llmSuggest_fst_documents, postVersionAudit_fst_documents, set_version_file_id_documents,
    attachFile_fst_documents]

theorem finishCreate_fst_evidence_reuse (s2 : St) (req : Req) (sha cid did vid : String)
    (m' : Meta) (cnd : Bool) (paso : String) (e : EvidenceRow)
    (hev : EvidenceStore.find_by_sha s2 sha = some e)
    (hforce : req.force_new_version = true) :
    ((IngestionService.finishCreate s2 req sha cid did vid m' cnd paso).1).evidence_files =
      s2.evidence_files := by
  unfold IngestionService.finishCreate
  dsimp only
  rw [llmSuggest_fst_evidence, postVersionAudit_fst_evidence, set_version_file_id_evidence,
    attachFile_fst_evidence_reuse s2 req sha did vid e hev hforce]

theorem finishCreate_fst_evidence_new (s2 : St) (req : Req) (sha cid did vid : String)
    (m' : Meta) (cnd : Bool) (paso : String)
    (h : EvidenceStore.find_by_sha s2 sha = none ∨ req.force_new_version = false) :
    ((IngestionService.finishCreate s2 req sha cid did vid m' cnd paso).1).evidence_files =
      s2.evidence_files ++
        [⟨freshUuid s2.ctr, vid, sha, "application/pdf", req.pdf_bytes.length,
          "s3://epic1/" ++ ("evidence/" ++ did ++ "/" ++ vid ++ "/" ++ freshUuid s2.ctr ++
            ".pdf")⟩] := by
  unfold IngestionService.finishCreate
  dsimp only
  rw [llmSuggest_fst_evidence, postVersionAudit_fst_evidence, set_version_file_id_evidence,
    attachFile_fst_evidence_new s2 req sha did vid h]

theorem finishCreate_fst_versions (s2 : St) (req : Req) (sha cid did vid : String)
    (m' : Meta) (cnd : Bool) (paso : String) :
    ∃ g : VersionRow → VersionRow,
      (∀ w, g w = w ∨ (w.status = "ACTIVE" ∧ g w = { w with status := "SUPERSEDED" })) ∧
      ((IngestionService.finishCreate s2 req sha cid did vid m' cnd paso).1).versions =
        (s2.versions.map (fun w =>
          if w.version_id == vid then
            { w with
              file_id := some (IngestionService.finishFileId s2 sha req.force_new_version)
              uploaded_at := some s2.clock }
          else w)).map g := by
  unfold IngestionService.finishCreate
  dsimp only
  obtain ⟨g, hg, hv⟩ := postVersionAudit_fst_versions
    (RegistryService.set_version_file_id (IngestionService.attachFile s2 req sha did vid).1
      vid (IngestionService.attachFile s2 req sha did vid).2) req cid vid m' did
    (IngestionService.attachFile s2 req sha did vid).2 sha
  refine ⟨g, hg, ?_⟩
  rw [llmSuggest_fst_versions, hv, set_version_file_id_versions]
  simp only [attachFile_fst_versions, attachFile_fst_clock, attachFile_snd]

theorem finishCreate_fst_audit (s2 : St) (req : Req) (sha cid did vid : String)
    (m' : Meta) (cnd : Bool) (paso : String) :
    ∃ t, ((IngestionService.finishCreate s2 req sha cid did vid m' cnd paso).1).audit_log =
      s2.audit_log ++ t := by
  unfold IngestionService.finishCreate
  dsimp only
  obtain ⟨t1, ht1⟩ := postVersionAudit_fst_audit
    (RegistryService.set_version_file_id (IngestionService.attachFile s2 req sha did vid).1
      vid (IngestionService.attachFile s2 req sha did vid).2) req cid vid m' did
    (IngestionService.attachFile s2 req sha did vid).2 sha
  obtain ⟨t2, ht2⟩ := llmSuggest_fst_audit
    (IngestionService.postVersionAudit
      (RegistryService.set_version_file_id (IngestionService.attachFile s2 req sha did vid).1
        vid (IngestionService.attachFile s2 req sha did vid).2) req cid vid m' did
      (IngestionService.attachFile s2 req sha did vid).2 sha) req cid vid m'
  refine ⟨t1 ++ t2, ?_⟩
  rw [ht2, ht1, set_version_file_id_audit, attachFile_fst_audit, List.append_assoc]

/-- The three possible outcomes of `docStep`: primary-axis mismatch, document
found, or document created. -/
theorem docStep_cases (s : St) (m' : Meta) (pav pas : String) :
    (∃ doc p, RegistryService.find_document_by_metadata s m'.title m'.jurisdiction
        m'.regulation_family m'.instrument_type = some doc ∧
      m'.primary_axis = some p ∧ p ≠ "" ∧ doc.primary_axis ≠ "" ∧ p ≠ doc.primary_axis ∧
      IngestionService.docStep s m' pav pas =
        .error (.primaryAxisMismatch doc.primary_axis p)) ∨
    (∃ doc, RegistryService.find_document_by_metadata s m'.title m'.jurisdiction
        m'.regulation_family m'.instrument_type = some doc ∧
      IngestionService.docStep s m' pav pas =
        .ok (s, doc.document_id, false, doc.primary_axis_source)) ∨
    (RegistryService.find_document_by_metadata s m'.title m'.jurisdiction
        m'.regulation_family m'.instrument_type = none ∧
      IngestionService.docStep s m' pav pas =
        .ok ((RegistryService.create_document s m'.title m'.jurisdiction m'.regulation_family
          m'.instrument_type pav pas).1, freshUuid s.ctr, true, pas)) := by
  unfold IngestionService.docStep
  cases hfind : RegistryService.find_document_by_metadata s m'.title m'.jurisdiction
      m'.regulation_family m'.instrument_type with
  | none =>
    right; right
    exact ⟨rfl, rfl⟩
  | some doc =>
    cases hax : m'.primary_axis with
    | none =>
      right; left
      exact ⟨doc, rfl, rfl⟩
    | some p =>
      by_cases hc : (p ≠ "" && doc.primary_axis ≠ "" && p ≠ doc.primary_axis) = true
      · left
        have h2 := hc
        simp only [Bool.and_eq_true, decide_eq_true_eq] at h2
        refine ⟨doc, p, rfl, rfl, h2.1.1, h2.1.2, h2.2, ?_⟩
        simp [hc]
        exact ⟨h2.1.1, h2.1.2, h2.2⟩
      · right; left
        refine ⟨doc, rfl, ?_⟩
        have hc2 : (p ≠ "" && doc.primary_axis ≠ "" && p ≠ doc.primary_axis) = false := by
          revert hc; cases (p ≠ "" && doc.primary_axis ≠ "" && p ≠ doc.primary_axis) <;> simp
        simp [hc2]
        intro h1 h2
        by_contra h3
        exact hc (by simp [h1, h2, h3])

theorem ingestCreate_documents (s : St) (req : Req) (sha cid : String) :
    ((IngestionService.ingestCreate s req sha cid).1).documents = s.documents ∨
    ∃ d, ((IngestionService.ingestCreate s req sha cid).1).documents = s.documents ++ [d] := by
  unfold IngestionService.ingestCreate
  dsimp only
  rcases docStep_cases s (IngestionService.resolveAxis req.meta).2.2
      (IngestionService.resolveAxis req.meta).1 (IngestionService.resolveAxis req.meta).2.1 with
    ⟨doc, p, hf, hax, h1, h2, h3, hds⟩ | ⟨doc, hf, hds⟩ | ⟨hf, hds⟩
  · rw [hds]
    dsimp only
    left; rfl
  · rw [hds]
    dsimp only
    split
    · left; rfl
    · next s2r vidr heq =>
      obtain ⟨hst, _⟩ := create_version_ok _ _ _ _ _ _ _ _ _ _ _ _ heq
      dsimp only at hst
      left
      rw [finishCreate_fst_documents, hst]
  · rw [hds]
    dsimp only
    split
    · right
      dsimp only
      have hd := create_document_fst_documents s
        (IngestionService.resolveAxis req.meta).2.2.title
        (IngestionService.resolveAxis req.meta).2.2.jurisdiction
        (IngestionService.resolveAxis req.meta).2.2.regulation_family
        (IngestionService.resolveAxis req.meta).2.2.instrument_type
        (IngestionService.resolveAxis req.meta).1
        (IngestionService.resolveAxis req.meta).2.1
      exact ⟨_, hd⟩
    · next s2r vidr heq =>
      obtain ⟨hst, _⟩ := create_version_ok _ _ _ _ _ _ _ _ _ _ _ _ heq
      dsimp only at hst
      right
      have hd := create_document_fst_documents s
        (IngestionService.resolveAxis req.meta).2.2.title
        (IngestionService.resolveAxis req.meta).2.2.jurisdiction
        (IngestionService.resolveAxis req.meta).2.2.regulation_family
        (IngestionService.resolveAxis req.meta).2.2.instrument_type
        (IngestionService.resolveAxis req.meta).1
        (IngestionService.resolveAxis req.meta).2.1
      refine ⟨⟨freshUuid s.ctr, (IngestionService.resolveAxis req.meta).2.2.title,
        (IngestionService.resolveAxis req.meta).2.2.jurisdiction,
        (IngestionService.resolveAxis req.meta).2.2.regulation_family,
        (IngestionService.resolveAxis req.meta).2.2.instrument_type,
        (IngestionService.resolveAxis req.meta).1,
        (IngestionService.resolveAxis req.meta).2.1⟩, ?_⟩
      rw [finishCreate_fst_documents, hst]
      exact hd

theorem ingestCreate_audit (s : St) (req : Req) (sha cid : String) :
    ∃ t, ((IngestionService.ingestCreate s req sha cid).1).audit_log = s.audit_log ++ t := by
  unfold IngestionService.ingestCreate
  dsimp only
  rcases docStep_cases s (IngestionService.resolveAxis req.meta).2.2
      (IngestionService.resolveAxis req.meta).1 (IngestionService.resolveAxis req.meta).2.1 with
    ⟨doc, p, hf, hax, h1, h2, h3, hds⟩ | ⟨doc, hf, hds⟩ | ⟨hf, hds⟩
  · rw [hds]
    exact ⟨[], by simp⟩
  · rw [hds]
    dsimp only
    split
    · exact ⟨[], by simp⟩
    · next s2r vidr heq =>
      obtain ⟨hst, _⟩ := create_version_ok _ _ _ _ _ _ _ _ _ _ _ _ heq
      dsimp only at hst
      obtain ⟨t, ht⟩ := finishCreate_fst_audit s2r req sha cid doc.document_id vidr
        (IngestionService.resolveAxis req.meta).2.2 false doc.primary_axis_source
      refine ⟨t, ?_⟩
      rw [ht, hst]
  · rw [hds]
    dsimp only
    split
    · exact ⟨[], by simp⟩
    · next s2r vidr heq =>
      obtain ⟨hst, _⟩ := create_version_ok _ _ _ _ _ _ _ _ _ _ _ _ heq
      dsimp only at hst
      obtain ⟨t, ht⟩ := finishCreate_fst_audit s2r req sha cid (freshUuid s.ctr) vidr
        (IngestionService.resolveAxis req.meta).2.2 true
        (IngestionService.resolveAxis req.meta).2.1
      refine ⟨t, ?_⟩
      rw [ht, hst]
      simp

/-- `ingestMain` appends to the audit log, and the first appended row is
`EPIC1.REQUEST.RECEIVED` carrying the request correlation id. -/
theorem ingestMain_audit (s0 : St) (req : Req) (cid : String) :
    ∃ tail, ((IngestionService.ingestMain s0 req cid).1).audit_log =
      s0.audit_log ++
        (auditRowOf s0 "system" "epic1" "EPIC1.REQUEST.RECEIVED" req.actor cid
          (.obj (.cons "meta" (metaJson req.meta)
            (.cons "force_new_version" (.bool req.force_new_version) .nil))) true) :: tail := by
  unfold IngestionService.ingestMain IngestionService.preState
  dsimp only
  split
  · split
    · obtain ⟨t, ht⟩ := ingestCreate_audit _ req (FingerprintService.sha256_bytes req.pdf_bytes)
        cid
      rw [ht]
      simp only [write_fst_audit_log, List.append_assoc, List.singleton_append,
        List.cons_append]
      exact ⟨_, rfl⟩
    · simp only [write_fst_audit_log, List.append_assoc, List.singleton_append,
        List.cons_append]
      exact ⟨_, rfl⟩
  · obtain ⟨t, ht⟩ := ingestCreate_audit _ req (FingerprintService.sha256_bytes req.pdf_bytes)
      cid
    rw [ht]
    simp only [write_fst_audit_log, List.append_assoc, List.singleton_append,
      List.cons_append]
    exact ⟨_, rfl⟩

/-! ## C9: audit/validation ordering in `ingest_request` -/

/-- C9, corrected: in the code, `ingest_request` enforces the required-field
rules and the size limit BEFORE writing any audit row (source
`ingestion.py` lines 84-87 precede the `REQUEST.RECEIVED` write on line 89).
A request that fails validation returns the error with the audit log
untouched (only the correlation-id counter advanced); an oversized payload
likewise; only when both checks pass is `EPIC1.REQUEST.RECEIVED` written,
as the first appended audit row, with the fresh correlation id. -/
theorem c9_validation_precedes_request_received_audit (s : St) (req : Req) :
    (∀ e, enforce_upload_rules (IngestionService.getRules s) req.meta = .error e →
      IngestionService.ingest_request s req = ({ s with ctr := s.ctr + 1 }, .error e)) ∧
    (enforce_upload_rules (IngestionService.getRules s) req.meta = .ok () →
      (req.pdf_bytes.length : Int) >
          ((IngestionService.getRules s).max_pdf_mb.getD s.settings.MAX_PDF_MB) * 1024 * 1024 →
      IngestionService.ingest_request s req =
        ({ s with ctr := s.ctr + 1 },
          .error (.payloadTooLarge
            ((IngestionService.getRules s).max_pdf_mb.getD s.settings.MAX_PDF_MB)))) ∧
    (enforce_upload_rules (IngestionService.getRules s) req.meta = .ok () →
      ¬ ((req.pdf_bytes.length : Int) >
          ((IngestionService.getRules s).max_pdf_mb.getD s.settings.MAX_PDF_MB) * 1024 * 1024) →
      ∃ tail, ((IngestionService.ingest_request s req).1).audit_log =
        s.audit_log ++
          (auditRowOf { s with ctr := s.ctr + 1 } "system" "epic1" "EPIC1.REQUEST.RECEIVED"
            req.actor (freshUuid s.ctr)
            (.obj (.cons "meta" (metaJson req.meta)
              (.cons "force_new_version" (.bool req.force_new_version) .nil))) true) :: tail) := by
  refine ⟨?_, ?_, ?_⟩
  · intro e he
    unfold IngestionService.ingest_request
    dsimp only [St.freshId]
    rw [he]
  · intro hok hsz
    unfold IngestionService.ingest_request
    dsimp only [St.freshId]
    rw [hok]
    dsimp only
    rw [if_pos hsz]
  · intro hok hsz
    unfold IngestionService.ingest_request
    dsimp only [St.freshId]
    rw [hok]
    dsimp only
    rw [if_neg hsz]
    obtain ⟨t, ht⟩ := ingestMain_audit { s with ctr := s.ctr + 1 } req (freshUuid s.ctr)
    exact ⟨t, ht⟩

/-- C9 counterexample to the claimed order: with a rules row requiring
`title`, a request whose metadata has a blank title fails validation with
`VALIDATION_MISSING_FIELDS` and leaves ZERO audit rows — no
`REQUEST.RECEIVED` event is written, contradicting the claim that the audit
write happens first. -/
theorem c9_counterexample_no_audit_row_on_validation_failure :
    (IngestionService.ingest_request stRules (reqOf [97] metaNoTitle false)).2 =
      .error (.missingFields ["title"]) ∧
    ((IngestionService.ingest_request stRules (reqOf [97] metaNoTitle false)).1).audit_log
      = [] := by
  exact ⟨rfl, rfl⟩

/-- Witness for the corrected C9 theorem at concrete inputs: the
validation-failure branch applied to the blank-title request, and the
validation-success branch applied to the well-formed request. -/
theorem c9_validation_precedes_request_received_audit_witness :
    IngestionService.ingest_request stRules (reqOf [97] metaNoTitle false) =
      ({ stRules with ctr := stRules.ctr + 1 }, .error (.missingFields ["title"])) ∧
    ∃ tail,
      ((IngestionService.ingest_request stRules (reqOf [97] metaCbam false)).1).audit_log =
      stRules.audit_log ++
        (auditRowOf { stRules with ctr := stRules.ctr + 1 } "system" "epic1"
          "EPIC1.REQUEST.RECEIVED" "op" (freshUuid stRules.ctr)
          (.obj (.cons "meta" (metaJson metaCbam)
            (.cons "force_new_version" (.bool false) .nil))) true) :: tail :=
  ⟨(c9_validation_precedes_request_received_audit stRules
      (reqOf [97] metaNoTitle false)).1 (.missingFields ["title"]) rfl,
   (c9_validation_precedes_request_received_audit stRules
      (reqOf [97] metaCbam false)).2.2 rfl (by decide)⟩

theorem ingestMain_documents (s0 : St) (req : Req) (cid : String) :
    ((IngestionService.ingestMain s0 req cid).1).documents = s0.documents ∨
    ∃ d, ((IngestionService.ingestMain s0 req cid).1).documents = s0.documents ++ [d] := by
  unfold IngestionService.ingestMain IngestionService.preState
  dsimp only
  split
  · split
    · rcases ingestCreate_documents _ req (FingerprintService.sha256_bytes req.pdf_bytes) cid
        with h | ⟨d, h⟩
      · left
        rw [h]
        simp only [write_fst_documents]
      · right
        refine ⟨d, ?_⟩
        rw [h]
        simp only [write_fst_documents]
    · left
      simp only [write_fst_documents]
  · rcases ingestCreate_documents _ req (FingerprintService.sha256_bytes req.pdf_bytes) cid
      with h | ⟨d, h⟩
    · left
      rw [h]
      simp only [write_fst_documents]
    · right
      refine ⟨d, ?_⟩
      rw [h]
      simp only [write_fst_documents]

theorem ingest_request_documents (s : St) (req : Req) :
    ∃ t, ((IngestionService.ingest_request s req).1).documents = s.documents ++ t := by
  unfold IngestionService.ingest_request
  dsimp only [St.freshId]
  split
  · exact ⟨[], by simp⟩
  · split
    · exact ⟨[], by simp⟩
    · rcases ingestMain_documents { s with ctr := s.ctr + 1 } req (freshUuid s.ctr)
        with h | ⟨d, h⟩
      · refine ⟨[], ?_⟩
        rw [h]
        simp
      · refine ⟨[d], ?_⟩
        rw [h]

/-! ## C6: the suggestion path never writes `documents.primary_axis` -/

/-- C6, confirmed: `upsert_primary_axis_suggestion` changes only the
`primary_axis_suggestions` table (it leaves `documents`, `document_versions`,
`evidence_files`, `audit_log` and the stored blobs untouched); the
orchestrator's LLM-suggestion step (`llmSuggest`, which performs the upsert
plus one audit write) leaves `documents`, `document_versions` and
`evidence_files` untouched; the version-status and artifact updates never
touch `documents`; and a whole ingestion request only ever APPENDS to
`documents`, so a document row's `primary_axis` / `primary_axis_source`,
written by `create_document` at creation, are never modified afterwards. -/
theorem c6_suggestion_path_never_writes_documents_axis :
    (∀ s v a m mv c j,
      (RegistryService.upsert_primary_axis_suggestion s v a m mv c j).documents =
        s.documents ∧
      (RegistryService.upsert_primary_axis_suggestion s v a m mv c j).versions = s.versions ∧
      (RegistryService.upsert_primary_axis_suggestion s v a m mv c j).evidence_files =
        s.evidence_files ∧
      (RegistryService.upsert_primary_axis_suggestion s v a m mv c j).audit_log =
        s.audit_log) ∧
    (∀ s6 req cid vid m,
      ((IngestionService.llmSuggest s6 req cid vid m).1).documents = s6.documents ∧
      ((IngestionService.llmSuggest s6 req cid vid m).1).versions = s6.versions ∧
      ((IngestionService.llmSuggest s6 req cid vid m).1).evidence_files =
        s6.evidence_files) ∧
    (∀ s v,
      (RegistryService.set_status_pending_to_active s v).documents = s.documents ∧
      (RegistryService.set_status_pending_to_failed s v).documents = s.documents ∧
      (RegistryService.mark_parent_superseded s v).documents = s.documents) ∧
    (∀ s v f, (RegistryService.set_version_file_id s v f).documents = s.documents) ∧
    (∀ s v j, (RegistryService.set_artifacts_json s v j).documents = s.documents) ∧
    (∀ s req, ∃ t,
      ((IngestionService.ingest_request s req).1).documents = s.documents ++ t) := by
  refine ⟨?_, ?_, ?_, ?_, ?_, ?_⟩
  · intro s v a m mv c j
    obtain ⟨h1, h2, h3, h4, _⟩ := upsert_suggestion_frame s v a m mv c j
    exact ⟨h1, h2, h3, h4⟩
  · intro s6 req cid vid m
    exact ⟨llmSuggest_fst_documents s6 req cid vid m,
      llmSuggest_fst_versions s6 req cid vid m,
      llmSuggest_fst_evidence s6 req cid vid m⟩
  · intro s v
    exact ⟨rfl, rfl, rfl⟩
  · intro s v f
    exact rfl
  · intro s v j
    exact rfl
  · exact ingest_request_documents

/-! ## C5: primary-axis mismatch vs the dedupe short-circuit -/

/-- `resolveAxis` never changes the four identity fields of the metadata. -/
theorem resolveAxis_fields (m : Meta) :
    (IngestionService.resolveAxis m).2.2.title = m.title ∧
    (IngestionService.resolveAxis m).2.2.jurisdiction = m.jurisdiction ∧
    (IngestionService.resolveAxis m).2.2.regulation_family = m.regulation_family ∧
    (IngestionService.resolveAxis m).2.2.instrument_type = m.instrument_type := by
  unfold IngestionService.resolveAxis
  split
  · exact ⟨rfl, rfl, rfl, rfl⟩
  · exact ⟨rfl, rfl, rfl, rfl⟩

/-- Audit writes do not change the tables the dedupe lookup reads. -/
theorem dedupe_match_existing_write (s : St) (a b c d e : String) (j : Json)
    (en : Bool) (sha : String) (m : Meta) :
    IngestionService.dedupe_match_existing ((AuditService.write s a b c d e j en).1) sha m =
      IngestionService.dedupe_match_existing s sha m := rfl

/-- Audit writes do not change the `documents` table the find reads. -/
theorem find_document_by_metadata_write (s : St) (a b c d e : String) (j : Json)
    (en : Bool) (t ju f i : String) :
    RegistryService.find_document_by_metadata ((AuditService.write s a b c d e j en).1)
        t ju f i =
      RegistryService.find_document_by_metadata s t ju f i := rfl

/-- C5, amended: the mismatch guard only fires on requests that get PAST the
dedupe short-circuit.  For a validated, within-size request that does not
dedupe-match, whose RESOLVED `primary_axis` — the caller-supplied value when
one is given, otherwise the deterministically derived value the code writes
back into the metadata — is non-empty, and whose identity metadata finds an
existing document with a truthy stored axis different from that resolved
value, `ingest_request` fails with `PRIMARY_AXIS_MISMATCH` (HTTP 400) and
leaves `documents`, `document_versions` and `evidence_files` unchanged. -/
theorem c5_primary_axis_mismatch_amended (s : St) (req : Req) (p : String)
    (doc : DocumentRow)
    (hval : enforce_upload_rules (IngestionService.getRules s) req.meta = .ok ())
    (hsz : ¬ ((req.pdf_bytes.length : Int) >
      ((IngestionService.getRules s).max_pdf_mb.getD s.settings.MAX_PDF_MB) * 1024 * 1024))
    (hded : IngestionService.dedupe_match_existing s
      (FingerprintService.sha256_bytes req.pdf_bytes) req.meta = none)
    (hp : (IngestionService.resolveAxis req.meta).2.2.primary_axis = some p)
    (hfind : RegistryService.find_document_by_metadata s req.meta.title
      req.meta.jurisdiction req.meta.regulation_family req.meta.instrument_type = some doc)
    (hpne : p ≠ "")
    (hdocax : doc.primary_axis ≠ "")
    (hne : p ≠ doc.primary_axis) :
    (IngestionService.ingest_request s req).2 =
      .error (.primaryAxisMismatch doc.primary_axis p) ∧
    ((IngestionService.ingest_request s req).1).versions = s.versions ∧
    ((IngestionService.ingest_request s req).1).documents = s.documents ∧
    ((IngestionService.ingest_request s req).1).evidence_files = s.evidence_files ∧
    (IngestionService.ingest_request s req).2.map Resp.http_status ≠ .ok 200 := by
  obtain ⟨hmt, hmj, hmr, hmi⟩ := resolveAxis_fields req.meta
  have key : ∃ s', IngestionService.ingest_request s req =
      (s', .error (.primaryAxisMismatch doc.primary_axis p)) ∧
      s'.versions = s.versions ∧ s'.documents = s.documents ∧
      s'.evidence_files = s.evidence_files := by
    unfold IngestionService.ingest_request
    dsimp only [St.freshId]
    rw [hval]
    dsimp only
    rw [if_neg hsz]
    unfold IngestionService.ingestMain IngestionService.preState
    dsimp only
    rw [dedupe_match_existing_write, dedupe_match_existing_write,
      dedupe_match_existing_write,
      show IngestionService.dedupe_match_existing { s with ctr := s.ctr + 1 }
        (FingerprintService.sha256_bytes req.pdf_bytes) req.meta = none from hded]
    dsimp only
    unfold IngestionService.ingestCreate
    dsimp only
    unfold IngestionService.docStep
    rw [hmt, hmj, hmr, hmi]
    rw [find_document_by_metadata_write, find_document_by_metadata_write,
      find_document_by_metadata_write,
      show RegistryService.find_document_by_metadata { s with ctr := s.ctr + 1 }
        req.meta.title req.meta.jurisdiction req.meta.regulation_family
        req.meta.instrument_type = some doc from hfind]
    dsimp only
    rw [hp]
    dsimp only
    rw [if_pos (show (p ≠ "" && doc.primary_axis ≠ "" && p ≠ doc.primary_axis) = true by
      simp [hpne, hdocax, hne])]
    dsimp only
    refine ⟨_, rfl, by simp, by simp, by simp⟩
  obtain ⟨s', hkey, hv, hd, he2⟩ := key
  rw [hkey]
  exact ⟨rfl, hv, hd, he2, by simp [Except.map]⟩

set_option maxRecDepth 40000 in
/-- C5 counterexample to the claim as stated: uploading the SAME bytes again
with a conflicting caller-supplied `primary_axis="theme"` (stored axis is
`"jurisdiction"`) does NOT fail with 400 `PRIMARY_AXIS_MISMATCH` — the dedupe
short-circuit runs first and returns 200 `DEDUP_RETURN_EXISTING`. -/
theorem c5_counterexample_dedupe_shortcircuits_mismatch :
    (IngestionService.ingest_request stOne (reqOf [97] metaTheme false)).2.map
        (fun r => (r.http_status, r.ingestion_status)) =
      .ok (200, "DEDUP_RETURN_EXISTING") := rfl

set_option maxRecDepth 60000 in
/-- Witness for the amended C5 theorem, exercising BOTH branches of the
resolved axis.  Caller-supplied branch: different bytes (no dedupe match)
with provided axis `"theme"` against stored `"jurisdiction"`.  Derived
branch: the caller leaves the axis blank, the code derives `"jurisdiction"`
(non-blank jurisdiction) and the guard fires against the stored `"theme"`.
Both fail with `PRIMARY_AXIS_MISMATCH` and write no rows. -/
theorem c5_primary_axis_mismatch_amended_witness :
    ((IngestionService.ingest_request stOne (reqOf [98] metaTheme false)).2 =
        .error (.primaryAxisMismatch "jurisdiction" "theme") ∧
      ((IngestionService.ingest_request stOne (reqOf [98] metaTheme false)).1).versions =
        stOne.versions ∧
      ((IngestionService.ingest_request stOne (reqOf [98] metaTheme false)).1).documents =
        stOne.documents ∧
      ((IngestionService.ingest_request stOne (reqOf [98] metaTheme
          false)).1).evidence_files = stOne.evidence_files ∧
      (IngestionService.ingest_request stOne (reqOf [98] metaTheme false)).2.map
        Resp.http_status ≠ .ok 200) ∧
    ((IngestionService.ingest_request stOneUp (reqOf [98] metaCbam false)).2 =
        .error (.primaryAxisMismatch "theme" "jurisdiction") ∧
      ((IngestionService.ingest_request stOneUp (reqOf [98] metaCbam false)).1).versions =
        stOneUp.versions ∧
      ((IngestionService.ingest_request stOneUp (reqOf [98] metaCbam false)).1).documents =
        stOneUp.documents ∧
      ((IngestionService.ingest_request stOneUp (reqOf [98] metaCbam
          false)).1).evidence_files = stOneUp.evidence_files ∧
      (IngestionService.ingest_request stOneUp (reqOf [98] metaCbam false)).2.map
        Resp.http_status ≠ .ok 200) :=
  ⟨c5_primary_axis_mismatch_amended stOne (reqOf [98] metaTheme false) "theme" docCbam
      rfl (by decide) rfl rfl rfl (by decide) (by decide) (by decide),
   c5_primary_axis_mismatch_amended stOneUp (reqOf [98] metaCbam false) "jurisdiction"
      docUp rfl (by decide) rfl rfl rfl (by decide) (by decide) (by decide)⟩

/-! ## C7: forced re-version reuses the evidence file -/

/-- Core of C7 at the `finishCreate` stage: on success the response is 201;
when evidence for the sha exists and `force_new_version` is set, the existing
`file_id` is attached and no evidence row is created; otherwise a fresh
evidence row is created and its new `file_id` attached. -/
theorem finishCreate_c7 (s2 : St) (req : Req) (sha cid did vid : String) (m' : Meta)
    (cnd : Bool) (paso : String) (r : Resp) (s : St)
    (hev_eq : s2.evidence_files = s.evidence_files)
    (hok : (IngestionService.finishCreate s2 req sha cid did vid m' cnd paso).2 = .ok r) :
    ((IngestionService.finishCreate s2 req sha cid did vid m' cnd paso).1).versions.length =
      s2.versions.length ∧
    r.http_status = 201 ∧
    (∀ e, EvidenceStore.find_by_sha s sha = some e → req.force_new_version = true →
      r.ingestion_status = "CREATED_NEW_VERSION_REUSED_FILE" ∧ r.file_id = e.file_id ∧
      ((IngestionService.finishCreate s2 req sha cid did vid m' cnd paso).1).evidence_files =
        s.evidence_files) ∧
    (EvidenceStore.find_by_sha s sha = none →
      ∃ row, ((IngestionService.finishCreate s2 req sha cid did vid m' cnd
            paso).1).evidence_files = s.evidence_files ++ [row] ∧
        row.sha256 = sha ∧ r.file_id = row.file_id) ∧
    (∀ e, EvidenceStore.find_by_sha s sha = some e → req.force_new_version = false →
      ∃ row, ((IngestionService.finishCreate s2 req sha cid did vid m' cnd
            paso).1).evidence_files = s.evidence_files ++ [row] ∧
        row.sha256 = sha ∧ r.file_id = row.file_id) := by
  obtain ⟨r', hr', h201, hstat, hcorr, hdid, hvid, hfid, hsha, hpas⟩ :=
    finishCreate_snd s2 req sha cid did vid m' cnd paso
  rw [hr', Except.ok.injEq] at hok
  subst hok
  have hfind_eq : EvidenceStore.find_by_sha s2 sha = EvidenceStore.find_by_sha s sha :=
    find_by_sha_congr s2 s sha hev_eq
  refine ⟨?_, h201, ?_, ?_, ?_⟩
  · obtain ⟨g, hg, hv⟩ := finishCreate_fst_versions s2 req sha cid did vid m' cnd paso
    rw [hv]
    simp
  · intro e he hf
    refine ⟨?_, ?_, ?_⟩
    · rw [hstat, hfind_eq, he, hf]
      rfl
    · rw [hfid]
      simp [IngestionService.finishFileId, hfind_eq, he, hf]
    · rw [finishCreate_fst_evidence_reuse s2 req sha cid did vid m' cnd paso e
        (hfind_eq.trans he) hf, hev_eq]
  · intro hnone
    have hnew := finishCreate_fst_evidence_new s2 req sha cid did vid m' cnd paso
      (Or.inl (hfind_eq.trans hnone))
    refine ⟨⟨freshUuid s2.ctr, vid, sha, "application/pdf", req.pdf_bytes.length,
      "s3://epic1/" ++ ("evidence/" ++ did ++ "/" ++ vid ++ "/" ++ freshUuid s2.ctr ++
        ".pdf")⟩, ?_, rfl, ?_⟩
    · rw [hnew, hev_eq]
    · rw [hfid]
      simp [IngestionService.finishFileId, hfind_eq, hnone]
  · intro e he hf
    have hnew := finishCreate_fst_evidence_new s2 req sha cid did vid m' cnd paso
      (Or.inr hf)
    refine ⟨⟨freshUuid s2.ctr, vid, sha, "application/pdf", req.pdf_bytes.length,
      "s3://epic1/" ++ ("evidence/" ++ did ++ "/" ++ vid ++ "/" ++ freshUuid s2.ctr ++
        ".pdf")⟩, ?_, rfl, ?_⟩
    · rw [hnew, hev_eq]
    · rw [hfid]
      simp [IngestionService.finishFileId, hfind_eq, he, hf]

/-- C7, confirmed at the create path: every successful run of the create
path adds exactly one version row and returns 201; when an evidence row for
the sha already exists and `force_new_version` is set, the response is
`CREATED_NEW_VERSION_REUSED_FILE` with the EXISTING `file_id` and no new
evidence row; when no evidence row exists for the sha (or
`force_new_version` is false), a fresh evidence row holding the sha is
created and its new `file_id` is attached and returned. -/
theorem c7_force_new_version_file_reuse (s : St) (req : Req) (sha cid : String) (r : Resp)
    (hok : (IngestionService.ingestCreate s req sha cid).2 = .ok r) :
    ((IngestionService.ingestCreate s req sha cid).1).versions.length =
      s.versions.length + 1 ∧
    r.http_status = 201 ∧
    (∀ e, EvidenceStore.find_by_sha s sha = some e → req.force_new_version = true →
      r.ingestion_status = "CREATED_NEW_VERSION_REUSED_FILE" ∧ r.file_id = e.file_id ∧
      ((IngestionService.ingestCreate s req sha cid).1).evidence_files =
        s.evidence_files) ∧
    (EvidenceStore.find_by_sha s sha = none →
      ∃ row, ((IngestionService.ingestCreate s req sha cid).1).evidence_files =
          s.evidence_files ++ [row] ∧ row.sha256 = sha ∧ r.file_id = row.file_id) ∧
    (∀ e, EvidenceStore.find_by_sha s sha = some e → req.force_new_version = false →
      ∃ row, ((IngestionService.ingestCreate s req sha cid).1).evidence_files =
          s.evidence_files ++ [row] ∧ row.sha256 = sha ∧ r.file_id = row.file_id) := by
  unfold IngestionService.ingestCreate at hok ⊢
  dsimp only at hok ⊢
  rcases docStep_cases s (IngestionService.resolveAxis req.meta).2.2
      (IngestionService.resolveAxis req.meta).1 (IngestionService.resolveAxis req.meta).2.1 with
    ⟨doc, p, hf, hax, h1, h2, h3, hds⟩ | ⟨doc, hf, hds⟩ | ⟨hf, hds⟩
  · rw [hds] at hok
    exact absurd hok (by simp)
  · rw [hds] at hok ⊢
    dsimp only at hok ⊢
    cases hcv : RegistryService.create_version s doc.document_id
        (IngestionService.resolveAxis req.meta).2.2.tenant_id
        (IngestionService.resolveAxis req.meta).2.2.effective_year req.actor sha
        (IngestionService.resolveAxis req.meta).2.2.version_label
        (IngestionService.resolveAxis req.meta).2.2.effective_date
        (IngestionService.resolveAxis req.meta).2.2.parent_version_id none "PENDING" with
    | error e =>
      rw [hcv] at hok
      exact absurd hok (by simp)
    | ok out =>
      obtain ⟨hst, hvid⟩ := create_version_ok _ _ _ _ _ _ _ _ _ _ _ _ hcv
      rw [hcv] at hok
      obtain ⟨s2o, vido⟩ := out
      dsimp only at hst hvid hok ⊢
      have hev_eq : s2o.evidence_files = s.evidence_files := by
        rw [hst]
      obtain ⟨L, H201, A, B, C⟩ := finishCreate_c7 s2o req sha cid doc.document_id vido
        (IngestionService.resolveAxis req.meta).2.2 false doc.primary_axis_source r s
        hev_eq hok
      refine ⟨?_, H201, A, B, C⟩
      rw [L, hst]
      simp
  · rw [hds] at hok ⊢
    dsimp only at hok ⊢
    cases hcv : RegistryService.create_version
        (RegistryService.create_document s (IngestionService.resolveAxis req.meta).2.2.title
          (IngestionService.resolveAxis req.meta).2.2.jurisdiction
          (IngestionService.resolveAxis req.meta).2.2.regulation_family
          (IngestionService.resolveAxis req.meta).2.2.instrument_type
          (IngestionService.resolveAxis req.meta).1
          (IngestionService.resolveAxis req.meta).2.1).1
        (freshUuid s.ctr)
        (IngestionService.resolveAxis req.meta).2.2.tenant_id
        (IngestionService.resolveAxis req.meta).2.2.effective_year req.actor sha
        (IngestionService.resolveAxis req.meta).2.2.version_label
        (IngestionService.resolveAxis req.meta).2.2.effective_date
        (IngestionService.resolveAxis req.meta).2.2.parent_version_id none "PENDING" with
    | error e =>
      rw [hcv] at hok
      exact absurd hok (by simp)
    | ok out =>
      obtain ⟨hst, hvid⟩ := create_version_ok _ _ _ _ _ _ _ _ _ _ _ _ hcv
      rw [hcv] at hok
      obtain ⟨s2o, vido⟩ := out
      dsimp only at hst hvid hok ⊢
      have hev_eq : s2o.evidence_files = s.evidence_files := by
        rw [hst]
        simp
      obtain ⟨L, H201, A, B, C⟩ := finishCreate_c7 s2o req sha cid (freshUuid s.ctr) vido
        (IngestionService.resolveAxis req.meta).2.2 true
        (IngestionService.resolveAxis req.meta).2.1 r s hev_eq hok
      refine ⟨?_, H201, A, B, C⟩
      rw [L, hst]
      simp

set_option maxRecDepth 40000 in
/-- Witness for C7: re-uploading byte `97` into `stOne` with
`force_new_version=true` adds one version row, returns 201
`CREATED_NEW_VERSION_REUSED_FILE` with the stored evidence row's `file_id`,
and creates no evidence row. -/
theorem c7_force_new_version_file_reuse_witness :
    ((IngestionService.ingestCreate stOne (reqOf [97] metaCbam true)
        (FingerprintService.sha256_bytes [97]) "cid").1).versions.length =
      stOne.versions.length + 1 ∧
    respForced.http_status = 201 ∧
    respForced.ingestion_status = "CREATED_NEW_VERSION_REUSED_FILE" ∧
    respForced.file_id = evRow97.file_id ∧
    ((IngestionService.ingestCreate stOne (reqOf [97] metaCbam true)
        (FingerprintService.sha256_bytes [97]) "cid").1).evidence_files =
      stOne.evidence_files :=
  have h := c7_force_new_version_file_reuse stOne (reqOf [97] metaCbam true)
    (FingerprintService.sha256_bytes [97]) "cid" respForced rfl
  have ha := h.2.2.1 evRow97 rfl rfl
  ⟨h.1, h.2.1, ha.1, ha.2.1, ha.2.2⟩

/-! ## C1: dedupe of a second identical upload -/

/-- No stored evidence row carries the sha: the newest-row lookup misses. -/
theorem find_by_sha_none (s : St) (sha : String)
    (h : ∀ e ∈ s.evidence_files, e.sha256 ≠ sha) :
    EvidenceStore.find_by_sha s sha = none := by
  unfold EvidenceStore.find_by_sha
  rw [List.find?_eq_none]
  intro e he
  simp only [beq_iff_eq]
  exact h e (List.mem_reverse.mp he)

/-- No stored evidence row carries the sha: the dedupe lookup misses. -/
theorem dedupe_none_of_no_evidence (s : St) (sha : String) (m : Meta)
    (h : ∀ e ∈ s.evidence_files, e.sha256 ≠ sha) :
    IngestionService.dedupe_match_existing s sha m = none := by
  unfold IngestionService.dedupe_match_existing
  have hn : s.evidence_files.find? (fun e => e.sha256 == sha) = none := by
    rw [List.find?_eq_none]
    intro e he
    simp only [beq_iff_eq]
    exact h e he
  rw [hn]

/-- Under pairwise-distinct document ids, looking a member document up by its
own id finds exactly it. -/
theorem find?_doc_unique (l : List DocumentRow) (doc : DocumentRow)
    (hmem : doc ∈ l)
    (hpw : l.Pairwise (fun a b => a.document_id ≠ b.document_id)) :
    l.find? (fun d => d.document_id == doc.document_id) = some doc := by
  induction l with
  | nil => cases hmem
  | cons a t ih =>
    rcases List.mem_cons.mp hmem with h | h
    · subst h
      rw [List.find?_cons_of_pos]
      simp
    · have hpw' := List.pairwise_cons.mp hpw
      have hne : a.document_id ≠ doc.document_id := hpw'.1 doc h
      rw [List.find?_cons_of_neg]
      · exact ih h hpw'.2
      · simp [hne]

/-- Characterization of a successful create-path run (`ingestCreate`) on a
state holding no evidence for the sha: exactly one evidence row (with the
sha and the returned fresh `file_id`) and one version row (with the returned
fresh `version_id`, the sha and that `file_id`) are appended; pre-existing
version rows keep their sha and (unless they collide with the fresh
`version_id`) their `file_id`; `documents` either gains nothing (the
response carries an existing matching document's id and axis source) or
gains exactly the one new document with the request's identity fields. -/
theorem ingestCreate_create_chars (s : St) (req : Req) (sha cid : String) (r : Resp)
    (hok : (IngestionService.ingestCreate s req sha cid).2 = .ok r)
    (hnone : EvidenceStore.find_by_sha s sha = none) :
    ∃ (kf kv : Nat) (h : VersionRow → VersionRow) (vrow : VersionRow)
      (newdocs : List DocumentRow) (ev : EvidenceRow),
      s.ctr ≤ kf ∧ s.ctr ≤ kv ∧
      r.file_id = freshUuid kf ∧ r.version_id = freshUuid kv ∧
      ((IngestionService.ingestCreate s req sha cid).1).evidence_files =
        s.evidence_files ++ [ev] ∧
      ev.sha256 = sha ∧ ev.file_id = r.file_id ∧
      ((IngestionService.ingestCreate s req sha cid).1).versions =
        s.versions.map h ++ [vrow] ∧
      vrow.version_id = r.version_id ∧ vrow.document_id = r.document_id ∧
      vrow.raw_sha256 = sha ∧ vrow.file_id = some r.file_id ∧
      (∀ w, (h w).raw_sha256 = w.raw_sha256 ∧
        ((h w).file_id = w.file_id ∨ w.version_id = r.version_id)) ∧
      ((IngestionService.ingestCreate s req sha cid).1).documents =
        s.documents ++ newdocs ∧
      ((newdocs = [] ∧ ∃ doc, doc ∈ s.documents ∧
          doc.title = req.meta.title ∧ doc.jurisdiction = req.meta.jurisdiction ∧
          doc.regulation_family = req.meta.regulation_family ∧
          doc.instrument_type = req.meta.instrument_type ∧
          r.document_id = doc.document_id ∧
          r.primary_axis_source = some doc.primary_axis_source) ∨
       (∃ nd, newdocs = [nd] ∧ nd.document_id = r.document_id ∧
          (∃ kd, r.document_id = freshUuid kd ∧ s.ctr ≤ kd) ∧
          nd.title = req.meta.title ∧ nd.jurisdiction = req.meta.jurisdiction ∧
          nd.regulation_family = req.meta.regulation_family ∧
          nd.instrument_type = req.meta.instrument_type ∧
          r.primary_axis_source = some nd.primary_axis_source)) := by
  obtain ⟨hmt, hmj, hmr, hmi⟩ := resolveAxis_fields req.meta
  unfold IngestionService.ingestCreate at hok ⊢
  dsimp only at hok ⊢
  rcases docStep_cases s (IngestionService.resolveAxis req.meta).2.2
      (IngestionService.resolveAxis req.meta).1 (IngestionService.resolveAxis req.meta).2.1 with
    ⟨doc, p, hf, hax, h1, h2, h3, hds⟩ | ⟨doc, hf, hds⟩ | ⟨hf, hds⟩
  · rw [hds] at hok
    exact absurd hok (by simp)
  · rw [hds] at hok ⊢
    dsimp only at hok ⊢
    cases hcv : RegistryService.create_version s doc.document_id
        (IngestionService.resolveAxis req.meta).2.2.tenant_id
        (IngestionService.resolveAxis req.meta).2.2.effective_year req.actor sha
        (IngestionService.resolveAxis req.meta).2.2.version_label
        (IngestionService.resolveAxis req.meta).2.2.effective_date
        (IngestionService.resolveAxis req.meta).2.2.parent_version_id none "PENDING" with
    | error e =>
      rw [hcv] at hok
      exact absurd hok (by simp)
    | ok out =>
      obtain ⟨hst, hvido⟩ := create_version_ok _ _ _ _ _ _ _ _ _ _ _ _ hcv
      rw [hcv] at hok
      obtain ⟨s2o, vido⟩ := out
      dsimp only at hst hvido hok ⊢
      obtain ⟨r', hr', h201, hstat, hcorr, hdid, hvidr, hfid, hsha, hpas⟩ :=
        finishCreate_snd s2o req sha cid doc.document_id vido
          (IngestionService.resolveAxis req.meta).2.2 false doc.primary_axis_source
      rw [hr', Except.ok.injEq] at hok
      subst hok
      have hev_eq : s2o.evidence_files = s.evidence_files := by rw [hst]
      have hctr : s2o.ctr = s.ctr + 1 := by rw [hst]
      have hclock : s2o.clock = s.clock := by rw [hst]
      have hnone2 : EvidenceStore.find_by_sha s2o sha = none :=
        (find_by_sha_congr s2o s sha hev_eq).trans hnone
      have hffi : IngestionService.finishFileId s2o sha req.force_new_version =
          freshUuid (s.ctr + 1) := by
        unfold IngestionService.finishFileId
        rw [hnone2]
        dsimp only
        rw [hctr]
      have hsv : s2o.versions = s.versions ++
          [⟨freshUuid s.ctr, doc.document_id,
            (IngestionService.resolveAxis req.meta).2.2.version_label,
            (IngestionService.resolveAxis req.meta).2.2.effective_date, "PENDING",
            (IngestionService.resolveAxis req.meta).2.2.parent_version_id,
            (IngestionService.resolveAxis req.meta).2.2.tenant_id,
            (IngestionService.resolveAxis req.meta).2.2.effective_year, req.actor, sha,
            none, none, none⟩] := by
        rw [hst]
      have hnew := finishCreate_fst_evidence_new s2o req sha cid doc.document_id vido
        (IngestionService.resolveAxis req.meta).2.2 false doc.primary_axis_source
        (Or.inl hnone2)
      obtain ⟨g, hg, hv⟩ := finishCreate_fst_versions s2o req sha cid doc.document_id vido
        (IngestionService.resolveAxis req.meta).2.2 false doc.primary_axis_source
      rw [hsv, List.map_append, List.map_append, List.map_map, List.map_cons,
        List.map_nil, List.map_cons, List.map_nil] at hv
      have hbeq : ((⟨freshUuid s.ctr, doc.document_id,
          (IngestionService.resolveAxis req.meta).2.2.version_label,
          (IngestionService.resolveAxis req.meta).2.2.effective_date, "PENDING",
          (IngestionService.resolveAxis req.meta).2.2.parent_version_id,
          (IngestionService.resolveAxis req.meta).2.2.tenant_id,
          (IngestionService.resolveAxis req.meta).2.2.effective_year, req.actor, sha,
          none, none, none⟩ : VersionRow).version_id == vido) = true := by
        rw [hvido]
        exact beq_self_eq_true _
      have hdocfields := List.find?_some (by
        have := hf
        unfold RegistryService.find_document_by_metadata at this
        exact this)
      simp only [Bool.and_eq_true, beq_iff_eq] at hdocfields
      refine ⟨s.ctr + 1, s.ctr, _, _, [],
        ⟨freshUuid s2o.ctr, vido, sha, "application/pdf", req.pdf_bytes.length,
          "s3://epic1/" ++ ("evidence/" ++ doc.document_id ++ "/" ++ vido ++ "/" ++
            freshUuid s2o.ctr ++ ".pdf")⟩,
        Nat.le_succ s.ctr, Nat.le_refl s.ctr,
        hfid.trans hffi, hvidr.trans hvido, ?_, ?_, ?_, hv, ?_, ?_, ?_, ?_, ?_, ?_, ?_⟩
      · rw [hnew, hev_eq]
      · rfl
      · rw [hfid, hffi, hctr]
      · rcases hg _ with hgw | ⟨hact, hgw⟩
        · rw [hgw, if_pos hbeq, hvidr, hvido]
        · rw [hgw, if_pos hbeq, hvidr, hvido]
      · rcases hg _ with hgw | ⟨hact, hgw⟩
        · rw [hgw, if_pos hbeq, hdid]
        · rw [hgw, if_pos hbeq, hdid]
      · rcases hg _ with hgw | ⟨hact, hgw⟩
        · rw [hgw, if_pos hbeq]
        · rw [hgw, if_pos hbeq]
      · rcases hg _ with hgw | ⟨hact, hgw⟩
        · rw [hgw, if_pos hbeq, hfid, hffi]
        · rw [if_pos hbeq] at hact
          exact absurd hact (by simp)
      · intro w
        constructor
        · rcases hg _ with hgw | ⟨hact, hgw⟩
          · rw [Function.comp_apply, hgw]
            by_cases hc : (w.version_id == vido) = true
            · rw [if_pos hc]
            · rw [if_neg hc]
          · rw [Function.comp_apply, hgw]
            by_cases hc : (w.version_id == vido) = true
            · rw [if_pos hc]
            · rw [if_neg hc]
        · by_cases hc : (w.version_id == vido) = true
          · right
            rw [hvidr]
            exact beq_iff_eq.mp hc
          · left
            rcases hg _ with hgw | ⟨hact, hgw⟩
            · rw [Function.comp_apply, hgw, if_neg hc]
            · rw [Function.comp_apply, hgw, if_neg hc]
      · rw [finishCreate_fst_documents, hst]
        simp
      · left
        refine ⟨rfl, doc, List.mem_of_find?_eq_some (by
          have := hf
          unfold RegistryService.find_document_by_metadata at this
          exact this), ?_, ?_, ?_, ?_, hdid, hpas⟩
        · rw [hdocfields.1.1.1, hmt]
        · rw [hdocfields.1.1.2, hmj]
        · rw [hdocfields.1.2, hmr]
        · rw [hdocfields.2, hmi]
  · rw [hds] at hok ⊢
    dsimp only at hok ⊢
    cases hcv : RegistryService.create_version
        (RegistryService.create_document s (IngestionService.resolveAxis req.meta).2.2.title
          (IngestionService.resolveAxis req.meta).2.2.jurisdiction
          (IngestionService.resolveAxis req.meta).2.2.regulation_family
          (IngestionService.resolveAxis req.meta).2.2.instrument_type
          (IngestionService.resolveAxis req.meta).1
          (IngestionService.resolveAxis req.meta).2.1).1
        (freshUuid s.ctr)
        (IngestionService.resolveAxis req.meta).2.2.tenant_id
        (IngestionService.resolveAxis req.meta).2.2.effective_year req.actor sha
        (IngestionService.resolveAxis req.meta).2.2.version_label
        (IngestionService.resolveAxis req.meta).2.2.effective_date
        (IngestionService.resolveAxis req.meta).2.2.parent_version_id none "PENDING" with
    | error e =>
      rw [hcv] at hok
      exact absurd hok (by simp)
    | ok out =>
      obtain ⟨hst, hvido⟩ := create_version_ok _ _ _ _ _ _ _ _ _ _ _ _ hcv
      rw [hcv] at hok
      obtain ⟨s2o, vido⟩ := out
      dsimp only at hst hvido hok ⊢
      obtain ⟨r', hr', h201, hstat, hcorr, hdid, hvidr, hfid, hsha, hpas⟩ :=
        finishCreate_snd s2o req sha cid (freshUuid s.ctr) vido
          (IngestionService.resolveAxis req.meta).2.2 true
          (IngestionService.resolveAxis req.meta).2.1
      rw [hr', Except.ok.injEq] at hok
      subst hok
      have hev_eq : s2o.evidence_files = s.evidence_files := by
        rw [hst]
        simp
      have hctr : s2o.ctr = s.ctr + 2 := by
        rw [hst]
        simp
      have hnone2 : EvidenceStore.find_by_sha s2o sha = none :=
        (find_by_sha_congr s2o s sha hev_eq).trans hnone
      have hffi : IngestionService.finishFileId s2o sha req.force_new_version =
          freshUuid (s.ctr + 2) := by
        unfold IngestionService.finishFileId
        rw [hnone2]
        dsimp only
        rw [hctr]
      have hvid2 : vido = freshUuid (s.ctr + 1) := hvido
      have hsv : s2o.versions = s.versions ++
          [⟨freshUuid (s.ctr + 1), freshUuid s.ctr,
            (IngestionService.resolveAxis req.meta).2.2.version_label,
            (IngestionService.resolveAxis req.meta).2.2.effective_date, "PENDING",
            (IngestionService.resolveAxis req.meta).2.2.parent_version_id,
            (IngestionService.resolveAxis req.meta).2.2.tenant_id,
            (IngestionService.resolveAxis req.meta).2.2.effective_year, req.actor, sha,
            none, none, none⟩] := by
        rw [hst]
        simp
      have hnew := finishCreate_fst_evidence_new s2o req sha cid (freshUuid s.ctr) vido
        (IngestionService.resolveAxis req.meta).2.2 true
        (IngestionService.resolveAxis req.meta).2.1 (Or.inl hnone2)
      obtain ⟨g, hg, hv⟩ := finishCreate_fst_versions s2o req sha cid (freshUuid s.ctr) vido
        (IngestionService.resolveAxis req.meta).2.2 true
        (IngestionService.resolveAxis req.meta).2.1
      rw [hsv, List.map_append, List.map_append, List.map_map, List.map_cons,
        List.map_nil, List.map_cons, List.map_nil] at hv
      have hbeq : ((⟨freshUuid (s.ctr + 1), freshUuid s.ctr,
          (IngestionService.resolveAxis req.meta).2.2.version_label,
          (IngestionService.resolveAxis req.meta).2.2.effective_date, "PENDING",
          (IngestionService.resolveAxis req.meta).2.2.parent_version_id,
          (IngestionService.resolveAxis req.meta).2.2.tenant_id,
          (IngestionService.resolveAxis req.meta).2.2.effective_year, req.actor, sha,
          none, none, none⟩ : VersionRow).version_id == vido) = true := by
        rw [hvid2]
        exact beq_self_eq_true _
      refine ⟨s.ctr + 2, s.ctr + 1, _, _,
        [⟨freshUuid s.ctr, (IngestionService.resolveAxis req.meta).2.2.title,
          (IngestionService.resolveAxis req.meta).2.2.jurisdiction,
          (IngestionService.resolveAxis req.meta).2.2.regulation_family,
          (IngestionService.resolveAxis req.meta).2.2.instrument_type,
          (IngestionService.resolveAxis req.meta).1,
          (IngestionService.resolveAxis req.meta).2.1⟩],
        ⟨freshUuid s2o.ctr, vido, sha, "application/pdf", req.pdf_bytes.length,
          "s3://epic1/" ++ ("evidence/" ++ freshUuid s.ctr ++ "/" ++ vido ++ "/" ++
            freshUuid s2o.ctr ++ ".pdf")⟩,
        Nat.le_add_right s.ctr 2, Nat.le_succ s.ctr,
        hfid.trans hffi, hvidr.trans hvid2, ?_, ?_, ?_, hv, ?_, ?_, ?_, ?_, ?_, ?_, ?_⟩
      · rw [hnew, hev_eq]
      · rfl
      · rw [hfid, hffi, hctr]
      · rcases hg _ with hgw | ⟨hact, hgw⟩
        · rw [hgw, if_pos hbeq, hvidr, hvid2]
        · rw [hgw, if_pos hbeq, hvidr, hvid2]
      · rcases hg _ with hgw | ⟨hact, hgw⟩
        · rw [hgw, if_pos hbeq, hdid]
        · rw [hgw, if_pos hbeq, hdid]
      · rcases hg _ with hgw | ⟨hact, hgw⟩
        · rw [hgw, if_pos hbeq]
        · rw [hgw, if_pos hbeq]
      · rcases hg _ with hgw | ⟨hact, hgw⟩
        · rw [hgw, if_pos hbeq, hfid, hffi]
        · rw [if_pos hbeq] at hact
          exact absurd hact (by simp)
      · intro w
        constructor
        · rcases hg _ with hgw | ⟨hact, hgw⟩
          · rw [Function.comp_apply, hgw]
            by_cases hc : (w.version_id == vido) = true
            · rw [if_pos hc]
            · rw [if_neg hc]
          · rw [Function.comp_apply, hgw]
            by_cases hc : (w.version_id == vido) = true
            · rw [if_pos hc]
            · rw [if_neg hc]
        · by_cases hc : (w.version_id == vido) = true
          · right
            rw [hvidr]
            exact beq_iff_eq.mp hc
          · left
            rcases hg _ with hgw | ⟨hact, hgw⟩
            · rw [Function.comp_apply, hgw, if_neg hc]
            · rw [Function.comp_apply, hgw, if_neg hc]
      · rw [finishCreate_fst_documents, hst]
        simp [create_document_fst_documents]
      · right
        refine ⟨_, rfl, hdid.symm, ⟨s.ctr, hdid, Nat.le_refl s.ctr⟩, hmt, hmj, hmr, hmi, hpas⟩

@[simp] theorem preState_documents (s0 : St) (req : Req) (cid : String) :
    (IngestionService.preState s0 req cid).documents = s0.documents := rfl

@[simp] theorem preState_versions (s0 : St) (req : Req) (cid : String) :
    (IngestionService.preState s0 req cid).versions = s0.versions := rfl

@[simp] theorem preState_evidence (s0 : St) (req : Req) (cid : String) :
    (IngestionService.preState s0 req cid).evidence_files = s0.evidence_files := rfl

@[simp] theorem preState_ctr (s0 : St) (req : Req) (cid : String) :
    (IngestionService.preState s0 req cid).ctr = s0.ctr + 3 := rfl

theorem dedupe_match_existing_preState (s0 : St) (req : Req) (cid sha : String) (m : Meta) :
    IngestionService.dedupe_match_existing (IngestionService.preState s0 req cid) sha m =
      IngestionService.dedupe_match_existing s0 sha m := rfl

theorem dedupe_match_existing_ctr (s0 : St) (n : Nat) (sha : String) (m : Meta) :
    IngestionService.dedupe_match_existing { s0 with ctr := n } sha m =
      IngestionService.dedupe_match_existing s0 sha m := rfl

/-- C1, amended: IF the starting state holds no evidence row for the bytes'
sha (and its stored ids do not collide with the ids freshly generated), then
a pair of uploads with identical bytes and identical identity metadata,
the second with `force_new_version=false`, behaves as claimed: the second
upload returns 200 `DEDUP_RETURN_EXISTING` with the first upload's
`document_id`, `version_id` and `file_id` and the document's current
`primary_axis_source`, and writes no document, version or evidence row.
(Without the no-prior-evidence precondition the claim is false: the dedupe
lookup picks an arbitrary — here the oldest — evidence row for the sha,
whose document metadata may differ; see the counterexample.) -/
theorem c1_second_identical_upload_dedupes (s : St) (req1 req2 : Req) (r1 : Resp)
    (hb : req2.pdf_bytes = req1.pdf_bytes)
    (ht : req2.meta.title = req1.meta.title)
    (hj : req2.meta.jurisdiction = req1.meta.jurisdiction)
    (hrf : req2.meta.regulation_family = req1.meta.regulation_family)
    (hit : req2.meta.instrument_type = req1.meta.instrument_type)
    (hforce2 : req2.force_new_version = false)
    (H1 : ∀ e ∈ s.evidence_files,
      e.sha256 ≠ FingerprintService.sha256_bytes req1.pdf_bytes)
    (H2 : ∀ v ∈ s.versions, ∀ k, s.ctr ≤ k →
      v.version_id ≠ freshUuid k ∧ v.file_id ≠ some (freshUuid k))
    (H3 : ∀ d ∈ s.documents, ∀ k, s.ctr ≤ k → d.document_id ≠ freshUuid k)
    (H4 : s.documents.Pairwise (fun a b => a.document_id ≠ b.document_id))
    (hok1 : (IngestionService.ingest_request s req1).2 = .ok r1)
    (hval2 : enforce_upload_rules
      (IngestionService.getRules (IngestionService.ingest_request s req1).1) req2.meta =
        .ok ())
    (hsz2 : ¬ ((req2.pdf_bytes.length : Int) >
      ((IngestionService.getRules (IngestionService.ingest_request s req1).1).max_pdf_mb.getD
        ((IngestionService.ingest_request s req1).1).settings.MAX_PDF_MB) * 1024 * 1024)) :
    ∃ r2, (IngestionService.ingest_request (IngestionService.ingest_request s req1).1
        req2).2 = .ok r2 ∧
      r2.http_status = 200 ∧ r2.ingestion_status = "DEDUP_RETURN_EXISTING" ∧
      r2.document_id = r1.document_id ∧ r2.version_id = r1.version_id ∧
      r2.file_id = r1.file_id ∧ r2.primary_axis_source = r1.primary_axis_source ∧
      ((IngestionService.ingest_request (IngestionService.ingest_request s req1).1
          req2).1).documents = ((IngestionService.ingest_request s req1).1).documents ∧
      ((IngestionService.ingest_request (IngestionService.ingest_request s req1).1
          req2).1).versions = ((IngestionService.ingest_request s req1).1).versions ∧
      ((IngestionService.ingest_request (IngestionService.ingest_request s req1).1
          req2).1).evidence_files =
        ((IngestionService.ingest_request s req1).1).evidence_files := by
  cases hv1 : enforce_upload_rules (IngestionService.getRules s) req1.meta with
  | error e =>
    unfold IngestionService.ingest_request at hok1
    dsimp only [St.freshId] at hok1
    rw [hv1] at hok1
    exact absurd hok1 (by simp)
  | ok u =>
    cases u
    by_cases hsz1 : (req1.pdf_bytes.length : Int) >
        ((IngestionService.getRules s).max_pdf_mb.getD s.settings.MAX_PDF_MB) * 1024 * 1024
    · unfold IngestionService.ingest_request at hok1
      dsimp only [St.freshId] at hok1
      rw [hv1] at hok1
      dsimp only at hok1
      rw [if_pos hsz1] at hok1
      exact absurd hok1 (by simp)
    · have hded1 : IngestionService.dedupe_match_existing { s with ctr := s.ctr + 1 }
          (FingerprintService.sha256_bytes req1.pdf_bytes) req1.meta = none :=
        dedupe_none_of_no_evidence _ _ _ (fun e he => H1 e he)
      have hred : IngestionService.ingest_request s req1 =
          IngestionService.ingestCreate
            (IngestionService.preState { s with ctr := s.ctr + 1 } req1 (freshUuid s.ctr))
            req1 (FingerprintService.sha256_bytes req1.pdf_bytes) (freshUuid s.ctr) := by
        unfold IngestionService.ingest_request
        dsimp only [St.freshId]
        rw [hv1]
        dsimp only
        rw [if_neg hsz1]
        unfold IngestionService.ingestMain
        dsimp only
        rw [dedupe_match_existing_preState, hded1]
      rw [hred] at hok1 hval2 hsz2 ⊢
      have hnone3 : EvidenceStore.find_by_sha
          (IngestionService.preState { s with ctr := s.ctr + 1 } req1 (freshUuid s.ctr))
          (FingerprintService.sha256_bytes req1.pdf_bytes) = none :=
        find_by_sha_none _ _ (fun e he => H1 e he)
      obtain ⟨kf, kv, h, vrow, newdocs, ev, hkf, hkv, hrfid, hrvid, hev', hevsha, hevfid,
        hvers', hvrowvid, hvrowdoc, hvrowraw, hvrowfid, hhprops, hdocs', hcase⟩ :=
        ingestCreate_create_chars _ req1 (FingerprintService.sha256_bytes req1.pdf_bytes)
          (freshUuid s.ctr) r1 hok1 hnone3
      simp only [preState_documents, preState_versions, preState_evidence, preState_ctr]
        at hkf hkv hev' hvers' hdocs' hcase
      have hkf' : s.ctr ≤ kf := by omega
      have hkv' : s.ctr ≤ kv := by omega
      obtain ⟨dd, hddfind, hddt, hddj, hddrf, hddit, hddpas⟩ : ∃ dd,
          (s.documents ++ newdocs).find? (fun d => d.document_id == r1.document_id) =
            some dd ∧
          dd.title = req1.meta.title ∧ dd.jurisdiction = req1.meta.jurisdiction ∧
          dd.regulation_family = req1.meta.regulation_family ∧
          dd.instrument_type = req1.meta.instrument_type ∧
          r1.primary_axis_source = some dd.primary_axis_source := by
        rcases hcase with ⟨hnil, doc, hmem, ht1, hj1, hr1, hi1, hdid1, hpas1⟩ |
          ⟨nd, hnd, hndid, ⟨kd, hkd, hkdle⟩, ht1, hj1, hr1, hi1, hpas1⟩
        · refine ⟨doc, ?_, ht1, hj1, hr1, hi1, hpas1⟩
          rw [hnil, List.append_nil, hdid1]
          exact find?_doc_unique s.documents doc hmem H4
        · refine ⟨nd, ?_, ht1, hj1, hr1, hi1, hpas1⟩
          rw [hnd, List.find?_append]
          have hpre : s.documents.find? (fun d => d.document_id == r1.document_id) =
              none := by
            rw [List.find?_eq_none]
            intro d hd
            simp only [beq_iff_eq]
            rw [hkd]
            exact H3 d hd kd (by omega)
          rw [hpre]
          have hone : List.find? (fun d => d.document_id == r1.document_id) [nd] =
              some nd := List.find?_cons_of_pos _ (by simp [hndid])
          rw [hone]
          rfl
      have hfev : (s.evidence_files ++ [ev]).find?
          (fun e => e.sha256 == FingerprintService.sha256_bytes req1.pdf_bytes) =
            some ev := by
        rw [List.find?_append]
        have h1 : s.evidence_files.find?
            (fun e => e.sha256 == FingerprintService.sha256_bytes req1.pdf_bytes) =
              none := by
          rw [List.find?_eq_none]
          intro e he
          simp only [beq_iff_eq]
          exact H1 e he
        rw [h1]
        have h2 : List.find?
            (fun e => e.sha256 == FingerprintService.sha256_bytes req1.pdf_bytes) [ev] =
              some ev := List.find?_cons_of_pos _ (by simp [hevsha])
        rw [h2]
        rfl
      have hfil1 : List.filter
          (fun v => v.raw_sha256 == FingerprintService.sha256_bytes req1.pdf_bytes &&
            v.file_id == some ev.file_id) (s.versions.map h) = [] := by
        rw [List.filter_eq_nil]
        intro v hv
        obtain ⟨w, hw, rfl⟩ := List.mem_map.mp hv
        obtain ⟨hraw, hfo⟩ := hhprops w
        simp only [Bool.and_eq_true, beq_iff_eq, not_and]
        intro _ hfe
        rcases hfo with hfe2 | hvid2
        · have : w.file_id = some (freshUuid kf) := by
            rw [← hfe2, hfe, hevfid, hrfid]
          exact (H2 w hw kf hkf').2 this
        · have : w.version_id = freshUuid kv := by
            rw [hvid2, hrvid]
          exact (H2 w hw kv hkv').1 this
      have hfil2 : List.filter
          (fun v => v.raw_sha256 == FingerprintService.sha256_bytes req1.pdf_bytes &&
            v.file_id == some ev.file_id) [vrow] = [vrow] := by
        simp [List.filter_cons, hvrowraw, hvrowfid, hevfid]
      have hded2 : IngestionService.dedupe_match_existing
          ((IngestionService.ingestCreate
            (IngestionService.preState { s with ctr := s.ctr + 1 } req1 (freshUuid s.ctr))
            req1 (FingerprintService.sha256_bytes req1.pdf_bytes) (freshUuid s.ctr)).1)
          (FingerprintService.sha256_bytes req1.pdf_bytes) req2.meta =
          some ⟨r1.document_id, r1.version_id, r1.file_id,
            FingerprintService.sha256_bytes req1.pdf_bytes⟩ := by
        unfold IngestionService.dedupe_match_existing
        rw [hev', hfev]
        dsimp only
        rw [hvers', List.filter_append, hfil1, hfil2, List.nil_append]
        rw [show sortVersionsDesc [vrow] = [vrow] from rfl]
        rw [hdocs']
        rw [List.find?_cons_of_pos]
        · dsimp only
          rw [hvrowdoc, hvrowvid, hevfid]
        · rw [hvrowdoc, hddfind]
          simp [hddt, hddj, hddrf, hddit, ht, hj, hrf, hit]
      have hsha2 : FingerprintService.sha256_bytes req2.pdf_bytes =
          FingerprintService.sha256_bytes req1.pdf_bytes := by rw [hb]
      unfold IngestionService.ingest_request
      dsimp only [St.freshId]
      rw [hval2]
      dsimp only
      rw [if_neg hsz2]
      unfold IngestionService.ingestMain
      dsimp only
      rw [hsha2, dedupe_match_existing_preState, dedupe_match_existing_ctr, hded2]
      dsimp only
      rw [hforce2]
      simp only [Bool.false_eq_true, if_false]
      refine ⟨_, rfl, rfl, rfl, rfl, rfl, rfl, ?_, ?_, ?_, ?_⟩
      · show (((AuditService.write _ "version" r1.version_id
            "EPIC1.DEDUP.SHORTCIRCUIT_RETURNED" req2.actor _ _ true).1).documents.find?
            (fun d => d.document_id == r1.document_id)).map
          (fun d => d.primary_axis_source) = r1.primary_axis_source
        simp only [write_fst_documents, preState_documents]
        rw [hdocs', hddfind]
        simp [hddpas]
      · simp only [write_fst_documents, preState_documents]
      · simp only [write_fst_versions, preState_versions]
      · simp only [write_fst_evidence, preState_evidence]

set_option maxRecDepth 60000 in
/-- C1 counterexample: uploads 2 and 3 of the scenario have identical bytes,
identical identity metadata and `force_new_version=false` — the claimed
conditions — yet upload 3 returns 201 `CREATED_NEW_VERSION` and creates a
new version row and a new evidence row: the dedupe lookup picked the OLDEST
evidence row for the sha (upload 1's, whose document metadata differs) and
therefore missed. -/
theorem c1_counterexample_prior_evidence_defeats_dedupe :
    (IngestionService.ingest_request stTwo (reqOf [97] metaOther false)).2.map
        (fun r => (r.http_status, r.ingestion_status)) =
      .ok (201, "CREATED_NEW_VERSION") ∧
    ((IngestionService.ingest_request stTwo (reqOf [97] metaOther
        false)).1).versions.length = stTwo.versions.length + 1 ∧
    ((IngestionService.ingest_request stTwo (reqOf [97] metaOther
        false)).1).evidence_files.length = stTwo.evidence_files.length + 1 := by
  exact ⟨rfl, rfl, rfl⟩

set_option maxRecDepth 60000 in
/-- Witness for the amended C1 theorem: from the clean `stRules` state, a
second identical upload of byte `97` with `metaCbam` dedupes to upload 1's
ids and writes no rows. -/
theorem c1_second_identical_upload_dedupes_witness :
    ∃ r2, (IngestionService.ingest_request
        (IngestionService.ingest_request stRules (reqOf [97] metaCbam false)).1
        (reqOf [97] metaCbam false)).2 = .ok r2 ∧
      r2.http_status = 200 ∧ r2.ingestion_status = "DEDUP_RETURN_EXISTING" ∧
      r2.document_id = respFirst.document_id ∧ r2.version_id = respFirst.version_id ∧
      r2.file_id = respFirst.file_id ∧
      r2.primary_axis_source = respFirst.primary_axis_source ∧
      ((IngestionService.ingest_request
          (IngestionService.ingest_request stRules (reqOf [97] metaCbam false)).1
          (reqOf [97] metaCbam false)).1).documents =
        ((IngestionService.ingest_request stRules (reqOf [97] metaCbam
            false)).1).documents ∧
      ((IngestionService.ingest_request
          (IngestionService.ingest_request stRules (reqOf [97] metaCbam false)).1
          (reqOf [97] metaCbam false)).1).versions =
        ((IngestionService.ingest_request stRules (reqOf [97] metaCbam
            false)).1).versions ∧
      ((IngestionService.ingest_request
          (IngestionService.ingest_request stRules (reqOf [97] metaCbam false)).1
          (reqOf [97] metaCbam false)).1).evidence_files =
        ((IngestionService.ingest_request stRules (reqOf [97] metaCbam
            false)).1).evidence_files :=
  c1_second_identical_upload_dedupes stRules (reqOf [97] metaCbam false)
    (reqOf [97] metaCbam false) respFirst rfl rfl rfl rfl rfl rfl
    (by simp [stRules, stEmpty]) (by simp [stRules, stEmpty]) (by simp [stRules, stEmpty])
    (by simp [stRules, stEmpty]) rfl rfl (by decide)
